import Mathlib

/-!
Shallow embedding of the MonoDeal rules engine (src/App.tsx, src/constants.tsx,
and the type declarations) together with proofs about the claims of the
specification.  Pure helper functions of the source are translated to Lean
functions; the React component state that the engine callbacks read and write
(`gameState` plus the armed-interaction slots `pendingRentCard`,
`pendingForceDeal`, `pendingSlyDeal`) is modelled as an explicit `AppState`
record, and each engine callback becomes a total function on it.
-/

namespace Monodeal

/-- PropertyColor from types (part_000). -/
inductive PropertyColor where
  | BROWN | LIGHT_BLUE | PINK | ORANGE | RED | YELLOW
  | GREEN | DARK_BLUE | RAILROAD | UTILITY | ANY
deriving DecidableEq, Repr

/-- CardType from types. -/
inductive CardType where
  | PROPERTY | ACTION | RENT | MONEY | WILD
deriving DecidableEq, Repr

/-- Card from types: immutable identity plus display data. -/
structure Card where
  id : String
  name : String
  type : CardType
  value : Nat
  color : Option PropertyColor
  secondaryColor : Option PropertyColor
  description : Option String
deriving DecidableEq, Repr

/-- PropertySet from types. -/
structure PropertySet where
  color : PropertyColor
  cards : List Card
  isComplete : Bool
deriving DecidableEq, Repr

/-- Player from types. -/
structure Player where
  id : String
  name : String
  hand : List Card
  bank : List Card
  properties : List PropertySet
  isAI : Bool
deriving DecidableEq, Repr

/-- GamePhase from types. -/
inductive GamePhase where
  | LOBBY | START_TURN | PLAY_PHASE | END_TURN | GAME_OVER
deriving DecidableEq, Repr

/-- PendingAction.type from types. -/
inductive PAType where
  | FORCE_DEAL | SLY_DEAL | DEAL_BREAKER | RENT_ALL | DEBT_COLLECTOR | BIRTHDAY
deriving DecidableEq, Repr

/-- PendingAction from types.  `jsnStack` is optional in the source but is
always created as 0 and only read through `|| 0`, so it is a plain Nat here. -/
structure PendingAction where
  type : PAType
  card : Card
  attackerIndex : Fin 2
  targetIndex : Option Nat
  targetSetIndex : Option Nat
  mySetIndex : Option Nat
  jsnStack : Nat
deriving DecidableEq, Repr

/-- multiplayerRole from types. -/
inductive MPRole where
  | HOST | JOINER
deriving DecidableEq, Repr

/-- GameState from types.  The two players are kept as a pair (the source
uses a two-element array indexed by 0/1). -/
structure GameState where
  players : Player × Player
  activePlayerIndex : Fin 2
  deck : List Card
  discardPile : List Card
  phase : GamePhase
  actionsRemaining : Int
  logs : List String
  winner : Option String
  multiplayerRole : Option MPRole
  pendingAction : Option PendingAction
deriving DecidableEq, Repr

/-- The pendingForceDeal React state: the played card and the optional chosen
own-set index. -/
structure PendingForceDeal where
  card : Card
  mySetIndex : Option Nat
deriving DecidableEq, Repr

/-- The component state that the engine callbacks of App.tsx read and write:
the game state plus the three armed-interaction slots. -/
structure AppState where
  game : GameState
  pendingRentCard : Option Card
  pendingForceDeal : Option PendingForceDeal
  pendingSlyDeal : Option Card
deriving DecidableEq, Repr

/-- The move kinds accepted by executeMove. -/
inductive MoveType where
  | BANK | PROPERTY | ACTION_PLAY
deriving DecidableEq, Repr

/-- SET_LIMITS from types. -/
def SET_LIMITS : PropertyColor → Nat
  | .BROWN => 2
  | .LIGHT_BLUE => 3
  | .PINK => 3
  | .ORANGE => 3
  | .RED => 3
  | .YELLOW => 3
  | .GREEN => 3
  | .DARK_BLUE => 2
  | .RAILROAD => 4
  | .UTILITY => 2
  | .ANY => 999

/-- RENT_VALUES from types. -/
def RENT_VALUES : PropertyColor → List Nat
  | .BROWN => [1, 2]
  | .LIGHT_BLUE => [1, 2, 3]
  | .PINK => [1, 2, 4]
  | .ORANGE => [1, 3, 5]
  | .RED => [2, 3, 6]
  | .YELLOW => [2, 4, 6]
  | .GREEN => [2, 4, 7]
  | .DARK_BLUE => [3, 8]
  | .RAILROAD => [1, 2, 3, 4]
  | .UTILITY => [1, 2]
  | .ANY => [0]

/-- The display text of a color, as the template literals of the source
render it. -/
def colorName : PropertyColor → String
  | .BROWN => "BROWN"
  | .LIGHT_BLUE => "LIGHT_BLUE"
  | .PINK => "PINK"
  | .ORANGE => "ORANGE"
  | .RED => "RED"
  | .YELLOW => "YELLOW"
  | .GREEN => "GREEN"
  | .DARK_BLUE => "DARK_BLUE"
  | .RAILROAD => "RAILROAD"
  | .UTILITY => "UTILITY"
  | .ANY => "ANY"

/-- createCard from constants.tsx.  The source generates a random id suffix;
here ids are deterministic (`name-index`), which is a faithful representative
choice because nothing in the engine depends on the id text beyond identity. -/
def mkCard (idx : Nat) (name : String) (t : CardType) (v : Nat)
    (col : Option PropertyColor) (sec : Option PropertyColor)
    (desc : Option String) : Card :=
  ⟨name ++ "-" ++ toString idx, name, t, v, col, sec, desc⟩

/-- A run of `k` copies of one createCard call, with distinct ids. -/
def copies (k : Nat) (name : String) (t : CardType) (v : Nat)
    (col : Option PropertyColor) (sec : Option PropertyColor)
    (desc : Option String) : List Card :=
  (List.range k).map fun j => mkCard j name t v col sec desc

/-- INITIAL_DECK from constants.tsx, in source order. -/
def initialDeckList : List Card :=
  copies 1 "10M" .MONEY 10 none none none ++
  copies 2 "5M" .MONEY 5 none none none ++
  copies 3 "4M" .MONEY 4 none none none ++
  copies 3 "3M" .MONEY 3 none none none ++
  copies 5 "2M" .MONEY 2 none none none ++
  copies 6 "1M" .MONEY 1 none none none ++
  copies 2 "Deal Breaker" .ACTION 7 none none (some "Steal a complete set from any player.") ++
  copies 3 "Sly Deal" .ACTION 3 none none (some "Steal a single property from any player.") ++
  copies 3 "Force Deal" .ACTION 3 none none (some "Swap a property with another player.") ++
  copies 3 "Just Say No" .ACTION 4 none none (some "Counter any action card.") ++
  copies 3 "Debt Collector" .ACTION 3 none none (some "Collect 5M from one player.") ++
  copies 3 "It\x27s My Birthday" .ACTION 2 none none (some "Collect 2M from all players.") ++
  copies 10 "Pass Go" .ACTION 1 none none (some "Draw 2 extra cards.") ++
  copies 2 "Rent (Brown/L.Blue)" .RENT 1 (some .BROWN) (some .LIGHT_BLUE) (some "Collect rent for Brown or Light Blue sets.") ++
  copies 2 "Rent (Pink/Orange)" .RENT 1 (some .PINK) (some .ORANGE) (some "Collect rent for Pink or Orange sets.") ++
  copies 2 "Rent (Red/Yellow)" .RENT 1 (some .RED) (some .YELLOW) (some "Collect rent for Red or Yellow sets.") ++
  copies 2 "Rent (Green/D.Blue)" .RENT 1 (some .GREEN) (some .DARK_BLUE) (some "Collect rent for Green or Dark Blue sets.") ++
  copies 2 "Rent (Rail/Util)" .RENT 1 (some .RAILROAD) (some .UTILITY) (some "Collect rent for Railroad or Utility sets.") ++
  copies 3 "Any Rent" .RENT 3 (some .ANY) none (some "Collect rent for ANY color set.") ++
  copies 2 "Old Kent Road" .PROPERTY 1 (some .BROWN) none none ++
  copies 3 "The Angel Islington" .PROPERTY 1 (some .LIGHT_BLUE) none none ++
  copies 3 "Whitehall" .PROPERTY 2 (some .PINK) none none ++
  copies 3 "Bow Street" .PROPERTY 2 (some .ORANGE) none none ++
  copies 3 "Fleet Street" .PROPERTY 3 (some .RED) none none ++
  copies 3 "Leicester Square" .PROPERTY 3 (some .YELLOW) none none ++
  copies 3 "Bond Street" .PROPERTY 4 (some .GREEN) none none ++
  copies 2 "Park Lane" .PROPERTY 4 (some .DARK_BLUE) none none ++
  copies 4 "King\x27s Cross Station" .PROPERTY 2 (some .RAILROAD) none none ++
  copies 2 "Water Works" .PROPERTY 2 (some .UTILITY) none none ++
  copies 1 "Dark Blue/Green Wild" .WILD 4 (some .DARK_BLUE) (some .GREEN) (some "Use as Dark Blue or Green property.") ++
  copies 1 "Light Blue/Brown Wild" .WILD 1 (some .LIGHT_BLUE) (some .BROWN) (some "Use as Light Blue or Brown property.")

/-- The other player index (the source writes `1 - index` on a two-element
array). -/
def oppIdx (i : Fin 2) : Fin 2 := ⟨1 - i.val, by omega⟩

/-- Read the player at an index from the pair. -/
def GameState.getP (s : GameState) (i : Fin 2) : Player :=
  if i = 0 then s.players.1 else s.players.2

/-- Rebuild the player pair from the player at index `i` and the other
player. -/
def mkPlayers (i : Fin 2) (p q : Player) : Player × Player :=
  if i = 0 then (p, q) else (q, p)

/-- JavaScript truthiness of the `winner : string | null` field: non-null and
non-empty. -/
def isTruthy : Option String → Bool
  | none => false
  | some w => !(w == "")

/-- findIndex followed by splice(i, 1): remove the first list element
satisfying `q` and return it together with the remaining list. -/
def extractFirst (q : Card → Bool) : List Card → Option (Card × List Card)
  | [] => none
  | c :: cs =>
    if q c then some (c, cs)
    else (extractFirst q cs).map fun r => (r.1, c :: r.2)

/-- Push a card onto a set and recompute `isComplete` from SET_LIMITS, as
every placement site of the source does. -/
def pushToSet (st : PropertySet) (c : Card) : PropertySet :=
  let cards := st.cards ++ [c]
  ⟨st.color, cards, decide (SET_LIMITS st.color ≤ cards.length)⟩

/-- Update the first set satisfying `q` with `f`; `none` when no set
matches.  This mirrors `properties.find(...)` followed by in-place mutation
of the found set. -/
def updateFirst (q : PropertySet → Bool) (f : PropertySet → PropertySet) :
    List PropertySet → Option (List PropertySet)
  | [] => none
  | st :: ps =>
    if q st then some (f st :: ps)
    else (updateFirst q f ps).map fun ps' => st :: ps'

/-- The simple placement used by the PROPERTY move and by settlement step 2:
find the first existing set of exactly this color (complete or not), else
create a new set at the end; then push and recompute completeness. -/
def addToColorSet (ps : List PropertySet) (col : PropertyColor) (c : Card) :
    List PropertySet :=
  match updateFirst (fun st => st.color == col) (fun st => pushToSet st c) ps with
  | some ps' => ps'
  | none => ps ++ [pushToSet ⟨col, [], false⟩ c]

/-- The smart placement (`placeCard`) of the FORCE_DEAL effect: prefer an
incomplete set of the primary color, then an incomplete set of the secondary
color, then any set of the primary color, else create a new set. -/
def placeCard (ps : List PropertySet) (c : Card) : List PropertySet :=
  let tc := c.color.getD .ANY
  match updateFirst (fun st => st.color == tc && !st.isComplete)
      (fun st => pushToSet st c) ps with
  | some ps' => ps'
  | none =>
    match c.secondaryColor.bind fun sc =>
        updateFirst (fun st => st.color == sc && !st.isComplete)
          (fun st => pushToSet st c) ps with
    | some ps' => ps'
    | none =>
      match updateFirst (fun st => st.color == tc) (fun st => pushToSet st c) ps with
      | some ps' => ps'
      | none => ps ++ [pushToSet ⟨tc, [], false⟩ c]

/-- The SLY_DEAL placement for the stolen card: prefer an incomplete set of
the primary color, then an incomplete set of the secondary color, else create
a new set.  Unlike `placeCard` there is no fallback into a complete set. -/
def slyAssign (ps : List PropertySet) (c : Card) : List PropertySet :=
  let tc := c.color.getD .ANY
  match updateFirst (fun st => st.color == tc && !st.isComplete)
      (fun st => pushToSet st c) ps with
  | some ps' => ps'
  | none =>
    match c.secondaryColor.bind fun sc =>
        updateFirst (fun st => st.color == sc && !st.isComplete)
          (fun st => pushToSet st c) ps with
    | some ps' => ps'
    | none => ps ++ [pushToSet ⟨tc, [], false⟩ c]

/-- Settlement step 2 inner move: find the first set with cards, pop its last
card; an emptied set is spliced out, a surviving set is marked incomplete. -/
def popFirstNonempty : List PropertySet → Option (Card × List PropertySet)
  | [] => none
  | st :: ps =>
    match st.cards.getLast? with
    | none => (popFirstNonempty ps).map fun r => (r.1, st :: r.2)
    | some c =>
      let rest := st.cards.dropLast
      if rest.isEmpty then some (c, ps)
      else some (c, ⟨st.color, rest, false⟩ :: ps)

/-- Pop the last card of the set at index `i` (FORCE_DEAL / SLY_DEAL): an
emptied set is spliced out, a surviving set is marked incomplete.  `none`
when the index is absent or the set has no cards. -/
def popSetAt : List PropertySet → Nat → Option (Card × List PropertySet)
  | [], _ => none
  | st :: ps, 0 =>
    match st.cards.getLast? with
    | none => none
    | some c =>
      let rest := st.cards.dropLast
      if rest.isEmpty then some (c, ps)
      else some (c, ⟨st.color, rest, false⟩ :: ps)
  | st :: ps, i + 1 => (popSetAt ps i).map fun r => (r.1, st :: r.2)

/-- DEAL_BREAKER target selection: remove and return the first complete set.
The source filters by reference inequality against the found object, which on
distinct array elements removes exactly the first complete set. -/
def takeFirstComplete : List PropertySet → Option (PropertySet × List PropertySet)
  | [] => none
  | st :: ps =>
    if st.isComplete then some (st, ps)
    else (takeFirstComplete ps).map fun r => (r.1, st :: r.2)

/-- Total number of cards held across a list of property sets. -/
def propTotal (ps : List PropertySet) : Nat :=
  (ps.map fun st => st.cards.length).sum

/-- The ascending in-place bank sort of settlement step 1
(`bank.sort((a, b) => a.value - b.value)`, a stable ascending sort). -/
def sortBank (bank : List Card) : List Card :=
  bank.insertionSort fun a b => a.value ≤ b.value

def paidMsg (n : String) (c : Card) : String :=
  n ++ " paid " ++ c.name ++ " (" ++ toString c.value ++ "M) from bank."

def surrenderMsg (n : String) (c : Card) : String :=
  n ++ " surrendered property " ++ c.name ++ " to settle debt."

/-- Settlement step 1 loop: while debt remains and the bank is non-empty,
shift the (sorted) lowest card to the creditor's bank. -/
def payBank (bank toBank : List Card) (remaining : Int) (log : List String)
    (n : String) : List Card × List Card × Int × List String :=
  match bank with
  | [] => (bank, toBank, remaining, log)
  | c :: rest =>
    if 0 < remaining then
      let remaining' := remaining - (c.value : Int)
      let log1 := paidMsg n c :: log
      let log2 := if remaining' < 0 then "Note: No change is given in MonoDeal!" :: log1 else log1
      payBank rest (toBank ++ [c]) remaining' log2 n
    else (bank, toBank, remaining, log)

/-- Settlement step 2 loop, with fuel.  Each iteration pops exactly one card
from the debtor's first non-empty set, so `propTotal` fuel is exact: when it
reaches zero no non-empty set remains and the while-condition of the source
is false as well (payProps_terminates below). -/
def payPropsAux : Nat → List PropertySet → List PropertySet → Int →
    List String → String → List PropertySet × List PropertySet × Int × List String
  | 0, fp, tp, remaining, log, _ => (fp, tp, remaining, log)
  | fuel + 1, fp, tp, remaining, log, n =>
    if 0 < remaining ∧ fp ≠ [] then
      match popFirstNonempty fp with
      | none => (fp, tp, remaining, log)
      | some (c, fp') =>
        payPropsAux fuel fp' (addToColorSet tp (c.color.getD .ANY) c)
          (remaining - (c.value : Int)) (surrenderMsg n c :: log) n
    else (fp, tp, remaining, log)

/-- Settlement step 2 (the second while loop of processPayment). -/
def payProps (fp tp : List PropertySet) (remaining : Int) (log : List String)
    (n : String) : List PropertySet × List PropertySet × Int × List String :=
  payPropsAux (propTotal fp) fp tp remaining log n

/-- processPayment from App.tsx: returns the updated debtor, creditor and
log. -/
def processPayment (fromP toP : Player) (amount : Int) (log : List String) :
    Player × Player × List String :=
  let sorted := sortBank fromP.bank
  let r1 := payBank sorted toP.bank amount log fromP.name
  let r2 := payProps fromP.properties toP.properties r1.2.2.1 r1.2.2.2 fromP.name
  ({ fromP with bank := r1.1, properties := r2.1 },
   { toP with bank := r1.2.1, properties := r2.2.1 },
   r2.2.2.2)

/-- Number of complete property sets of a player. -/
def completeCount (p : Player) : Nat :=
  (p.properties.filter fun st => st.isComplete).length

/-- checkWinCondition from App.tsx: examines only the active player. -/
def checkWinCondition (s : GameState) : GameState :=
  if 3 ≤ completeCount (s.getP s.activePlayerIndex) then
    { s with winner := some (s.getP s.activePlayerIndex).name,
             phase := .GAME_OVER }
  else s

/-- The player index that must answer the current counter window: defender
when the stack is even, attacker when it is odd. -/
def jsnResponder (pa : PendingAction) : Fin 2 :=
  if pa.jsnStack % 2 = 0 then oppIdx pa.attackerIndex else pa.attackerIndex

/-- The effect part of resolvePendingAction (the if-chain on the pending
action type, lines 286-361 of App.tsx), applied when the action is
unblocked.  Only players and logs change here; discard, action count and the
pending slot are handled by the caller. -/
def applyEffect (s : GameState) (pa : PendingAction) : GameState :=
  let ai := pa.attackerIndex
  let att := s.getP ai
  let opp := s.getP (oppIdx ai)
  match pa.type with
  | .FORCE_DEAL =>
    match pa.mySetIndex, pa.targetSetIndex with
    | some mi, some ti =>
      match popSetAt att.properties mi, popSetAt opp.properties ti with
      | some (myCard, attProps1), some (oppCard, oppProps1) =>
        { s with
          players := mkPlayers ai
            { att with properties := placeCard attProps1 oppCard }
            { opp with properties := placeCard oppProps1 myCard },
          logs := (att.name ++ " played Force Deal: Swapped " ++ myCard.name ++
            " for " ++ oppCard.name ++ ".") :: s.logs }
      | _, _ => s
    | _, _ => s
  | .SLY_DEAL =>
    match pa.targetSetIndex with
    | none => s
    | some ti =>
      match opp.properties[ti]? with
      | some ts =>
        if ts.isComplete = false ∧ ts.cards ≠ [] then
          match popSetAt opp.properties ti with
          | some (stolen, oppProps1) =>
            { s with
              players := mkPlayers ai
                { att with properties := slyAssign att.properties stolen }
                { opp with properties := oppProps1 },
              logs := (att.name ++ " stole " ++ stolen.name ++ " with Sly Deal.") :: s.logs }
          | none => s
        else
          { s with logs := (att.name ++ " tried Sly Deal but target was invalid.") :: s.logs }
      | none =>
        { s with logs := (att.name ++ " tried Sly Deal but target was invalid.") :: s.logs }
  | .DEAL_BREAKER =>
    match takeFirstComplete opp.properties with
    | some (ts, oppProps1) =>
      { s with
        players := mkPlayers ai
          { att with properties := att.properties ++ [ts] }
          { opp with properties := oppProps1 },
        logs := (att.name ++ " played Deal Breaker: Stole a complete " ++
          colorName ts.color ++ " set!") :: s.logs }
    | none => s
  | .DEBT_COLLECTOR =>
    let log1 := (att.name ++ " used Debt Collector: " ++ opp.name ++ " owes 5M.") :: s.logs
    let r := processPayment opp att 5 log1
    { s with players := mkPlayers ai r.2.1 r.1, logs := r.2.2 }
  | .BIRTHDAY =>
    let log1 := (att.name ++ " used It\x27s My Birthday! " ++ opp.name ++ " owes 2M.") :: s.logs
    let r := processPayment opp att 2 log1
    { s with players := mkPlayers ai r.2.1 r.1, logs := r.2.2 }
  | .RENT_ALL => s

/-- resolvePendingAction from App.tsx. -/
def resolvePendingAction (s : GameState) (useJSN : Bool) : GameState :=
  match s.pendingAction with
  | none => s
  | some pa =>
    let ri := jsnResponder pa
    let responder := s.getP ri
    let jsnPlay :=
      if useJSN then extractFirst (fun c => c.name == "Just Say No") responder.hand
      else none
    match jsnPlay with
    | some (jsnCard, rest) =>
      { s with
        players := mkPlayers ri { responder with hand := rest } (s.getP (oppIdx ri)),
        discardPile := s.discardPile ++ [jsnCard],
        pendingAction := some { pa with jsnStack := pa.jsnStack + 1 },
        logs := (responder.name ++ " used JUST SAY NO! (Chain: " ++
          toString (pa.jsnStack + 1) ++ ")") :: s.logs }
    | none =>
      if pa.jsnStack % 2 = 1 then
        { s with
          logs := ("Action " ++ pa.card.name ++ " blocked by Just Say No.") :: s.logs,
          discardPile := s.discardPile ++ [pa.card],
          pendingAction := none,
          actionsRemaining := s.actionsRemaining - 1 }
      else
        let s1 := applyEffect s pa
        checkWinCondition
          { s1 with
            discardPile := s1.discardPile ++ [pa.card],
            actionsRemaining := s1.actionsRemaining - 1,
            pendingAction := none }

/-- Eligible target-set indices for the AI auto-targeting of Force Deal and
Sly Deal: incomplete sets with at least one card, in index order. -/
def eligibleIdxs (ps : List PropertySet) : List Nat :=
  (ps.enum.filter fun pi => !pi.2.isComplete && !pi.2.cards.isEmpty).map fun pi => pi.1

/-- Pick a random list element: `Math.floor(Math.random() * len)` is modelled
by an explicit random seed reduced modulo the length. -/
def pickIdx (l : List Nat) (rng : Nat) : Nat := l.getD (rng % l.length) 0

/-- executeMove from App.tsx.  `rng1`/`rng2` stand for the two
`Math.random()` draws of the AI auto-targeting branches; every other branch
ignores them.  The interaction slots written through setPendingRentCard /
setPendingForceDeal / setPendingSlyDeal are part of the returned AppState. -/
def executeMove (a : AppState) (mt : MoveType) (cardId : String)
    (rng1 rng2 : Nat) : AppState :=
  let s := a.game
  if s.actionsRemaining ≤ 0 ∨ s.phase ≠ .PLAY_PHASE ∨ isTruthy s.winner = true ∨
      s.pendingAction ≠ none then a
  else
    let i := s.activePlayerIndex
    let player := s.getP i
    let opponent := s.getP (oppIdx i)
    match extractFirst (fun c => c.id == cardId) player.hand with
    | none => a
    | some (card, rest) =>
      match mt with
      | .BANK =>
        let player' := { player with hand := rest, bank := player.bank ++ [card] }
        let s' := { s with
          players := mkPlayers i player' opponent,
          logs := (player.name ++ " banked " ++ card.name ++ " (" ++
            toString card.value ++ "M).") :: s.logs,
          actionsRemaining := s.actionsRemaining - 1 }
        { a with game := checkWinCondition s' }
      | .PROPERTY =>
        if card.type ≠ .PROPERTY ∧ card.type ≠ .WILD then a
        else
          let color := card.color.getD .ANY
          let player' := { player with
            hand := rest,
            properties := addToColorSet player.properties color card }
          let s' := { s with
            players := mkPlayers i player' opponent,
            logs := (player.name ++ " deployed " ++ card.name ++ ".") :: s.logs,
            actionsRemaining := s.actionsRemaining - 1 }
          { a with game := checkWinCondition s' }
      | .ACTION_PLAY =>
        if card.type = .RENT then
          { a with
            game := { s with players := mkPlayers i { player with hand := rest } opponent },
            pendingRentCard := some card }
        else if card.name = "Force Deal" then
          if player.isAI then
            let myIdxs := eligibleIdxs player.properties
            let oppIdxs := eligibleIdxs opponent.properties
            if myIdxs ≠ [] ∧ oppIdxs ≠ [] then
              { a with game := { s with
                  players := mkPlayers i { player with hand := rest } opponent,
                  pendingAction := some ⟨.FORCE_DEAL, card, i, none,
                    some (pickIdx oppIdxs rng2), some (pickIdx myIdxs rng1), 0⟩ } }
            else
              { a with game := { s with
                  players := mkPlayers i { player with hand := rest } opponent,
                  logs := "AI tried Force Deal but had no valid targets. Card wasted." :: s.logs,
                  discardPile := s.discardPile ++ [card],
                  actionsRemaining := s.actionsRemaining - 1 } }
          else
            { a with
              game := { s with players := mkPlayers i { player with hand := rest } opponent },
              pendingForceDeal := some ⟨card, none⟩ }
        else if card.name = "Sly Deal" then
          if player.isAI then
            let oppIdxs := eligibleIdxs opponent.properties
            if oppIdxs ≠ [] then
              { a with game := { s with
                  players := mkPlayers i { player with hand := rest } opponent,
                  pendingAction := some ⟨.SLY_DEAL, card, i, none,
                    some (pickIdx oppIdxs rng2), none, 0⟩ } }
            else
              { a with game := { s with
                  players := mkPlayers i { player with hand := rest } opponent,
                  logs := "AI tried Sly Deal but nothing to steal. Card wasted." :: s.logs,
                  discardPile := s.discardPile ++ [card],
                  actionsRemaining := s.actionsRemaining - 1 } }
          else
            { a with
              game := { s with players := mkPlayers i { player with hand := rest } opponent },
              pendingSlyDeal := some card }
        else if card.name = "Deal Breaker" ∨ card.name = "Debt Collector" ∨
            card.name = "It\x27s My Birthday" then
          let at1 : PAType :=
            if card.name = "Deal Breaker" then .DEAL_BREAKER
            else if card.name = "Debt Collector" then .DEBT_COLLECTOR
            else .BIRTHDAY
          let s' := { s with
            players := mkPlayers i { player with hand := rest } opponent,
            pendingAction := some ⟨at1, card, i, none, none, none, 0⟩ }
          { a with game := checkWinCondition s' }
        else if card.name = "Pass Go" then
          let drawn := s.deck.take 2
          let player' := { player with hand := rest ++ drawn }
          let s' := { s with
            players := mkPlayers i player' opponent,
            deck := s.deck.drop 2,
            logs := (player.name ++ " played Pass Go: +2 cards.") :: s.logs,
            discardPile := s.discardPile ++ [card],
            actionsRemaining := s.actionsRemaining - 1 }
          { a with game := checkWinCondition s' }
        else
          let s' := { s with
            players := mkPlayers i { player with hand := rest } opponent,
            logs := (player.name ++ " played " ++ card.name ++ ".") :: s.logs,
            discardPile := s.discardPile ++ [card],
            actionsRemaining := s.actionsRemaining - 1 }
          { a with game := checkWinCondition s' }

/-- startTurn from App.tsx. -/
def startTurn (s : GameState) : GameState :=
  if s.phase = .START_TURN then
    let i := s.activePlayerIndex
    let p := s.getP i
    let drawCount := if p.hand = [] then 5 else 2
    { s with
      players := mkPlayers i { p with hand := p.hand ++ s.deck.take drawCount }
        (s.getP (oppIdx i)),
      deck := s.deck.drop drawCount,
      actionsRemaining := 3,
      phase := .PLAY_PHASE,
      logs := (p.name ++ " draws " ++ toString drawCount ++ " cards.") :: s.logs }
  else s

/-- endTurn from App.tsx: advances the player from PLAY_PHASE and clears the
armed-interaction slots. -/
def endTurn (a : AppState) : AppState :=
  if a.game.phase = .PLAY_PHASE then
    let nextIdx := oppIdx a.game.activePlayerIndex
    { game := { a.game with
        activePlayerIndex := nextIdx,
        actionsRemaining := 3,
        phase := .START_TURN,
        logs := ("Turn change: " ++ (a.game.getP nextIdx).name ++ "\x27s turn.") :: a.game.logs },
      pendingRentCard := none,
      pendingForceDeal := none,
      pendingSlyDeal := none }
  else
    { a with pendingRentCard := none, pendingForceDeal := none, pendingSlyDeal := none }

/-- handleRentCollection from App.tsx.  The source indexes
`player.properties[setIndex]` unconditionally (the UI only offers valid
indices); an absent index, which would throw in JavaScript, is modelled as a
no-op and excluded by the step relation below. -/
def handleRentCollection (a : AppState) (setIndex : Nat) : AppState :=
  match a.pendingRentCard with
  | none => a
  | some rc =>
    let s := a.game
    let i := s.activePlayerIndex
    let player := s.getP i
    let opponent := s.getP (oppIdx i)
    match player.properties[setIndex]? with
    | none => a
    | some targetSet =>
      let rentArr := RENT_VALUES targetSet.color
      let count := min targetSet.cards.length rentArr.length
      let rentVal : Nat := if count = 0 then 0 else rentArr.getD (count - 1) 0
      let log1 := (player.name ++ " collected " ++ toString rentVal ++
        "M rent for " ++ colorName targetSet.color ++ " set.") :: s.logs
      let r := processPayment opponent player (rentVal : Int) log1
      let s' := { s with
        players := mkPlayers i r.2.1 r.1,
        logs := r.2.2,
        discardPile := s.discardPile ++ [rc],
        actionsRemaining := s.actionsRemaining - 1 }
      { a with game := checkWinCondition s', pendingRentCard := none }

/-- The select-own-set click of the Force Deal flow
(`setPendingForceDeal(prev => (\x7b...prev!, mySetIndex: i\x7d))`). -/
def chooseFDMySet (a : AppState) (i : Nat) : AppState :=
  match a.pendingForceDeal with
  | some pfd => { a with pendingForceDeal := some ⟨pfd.card, some i⟩ }
  | none => a

/-- initiateForceDeal from App.tsx: create the pending action from the armed
slot; the slot is cleared unconditionally (setPendingForceDeal(null) runs
after the state update in the source). -/
def initiateForceDeal (a : AppState) (targetSetIndex : Nat) : AppState :=
  match a.pendingForceDeal with
  | some ⟨c, some mi⟩ =>
    let pa : PendingAction :=
      ⟨.FORCE_DEAL, c, a.game.activePlayerIndex, none, some targetSetIndex, some mi, 0⟩
    { a with
      game := { a.game with pendingAction := some pa },
      pendingForceDeal := none }
  | _ => { a with pendingForceDeal := none }

/-- initiateSlyDeal from App.tsx. -/
def initiateSlyDeal (a : AppState) (targetSetIndex : Nat) : AppState :=
  match a.pendingSlyDeal with
  | some c =>
    let pa : PendingAction :=
      ⟨.SLY_DEAL, c, a.game.activePlayerIndex, none, some targetSetIndex, none, 0⟩
    { a with
      game := { a.game with pendingAction := some pa },
      pendingSlyDeal := none }
  | none => { a with pendingSlyDeal := none }

/-- initializeGame from App.tsx, parameterised by the already-shuffled deck
(the source shuffles RAW_DECK with Math.random) and the two mode flags. -/
def initApp (d : List Card) (vsAI mp : Bool) : AppState :=
  let p1hand := d.take 5
  let d1 := d.drop 5
  { game :=
    { players :=
        ({ id := "p1", name := if mp then "Host" else "Player 1",
           hand := p1hand, bank := [], properties := [], isAI := false },
         { id := "p2",
           name := if vsAI then "Gemini AI" else if mp then "Guest" else "Player 2",
           hand := d1.take 5, bank := [], properties := [], isAI := vsAI }),
      activePlayerIndex := 0,
      deck := d1.drop 5,
      discardPile := [],
      phase := .START_TURN,
      actionsRemaining := 3,
      logs := ["Game started! Master the market."],
      winner := none,
      multiplayerRole := if mp then some .HOST else none,
      pendingAction := none },
    pendingRentCard := none,
    pendingForceDeal := none,
    pendingSlyDeal := none }

/-- One engine step on the component state.  The hypotheses on the
constructors are exactly the conditions under which the UI can fire the
callback (hand cards and the END TURN button are disabled while an
interaction slot is armed; rent collection and the Force/Sly Deal target
clicks are only rendered for indices of existing sets and with the
corresponding slot armed). -/
inductive Step : AppState → AppState → Prop where
  | exec (a : AppState) (mt : MoveType) (cid : String) (r1 r2 : Nat)
      (hR : a.pendingRentCard = none) (hF : a.pendingForceDeal = none)
      (hS : a.pendingSlyDeal = none) :
      Step a (executeMove a mt cid r1 r2)
  | resolve (a : AppState) (b : Bool) :
      Step a { a with game := resolvePendingAction a.game b }
  | rent (a : AppState) (i : Nat) (c : Card)
      (h : a.pendingRentCard = some c)
      (hi : i < ((a.game.getP a.game.activePlayerIndex).properties).length) :
      Step a (handleRentCollection a i)
  | start (a : AppState) :
      Step a { a with game := startTurn a.game }
  | endT (a : AppState)
      (hR : a.pendingRentCard = none) (hF : a.pendingForceDeal = none)
      (hS : a.pendingSlyDeal = none) (hP : a.game.pendingAction = none) :
      Step a (endTurn a)
  | chooseMy (a : AppState) (i : Nat) (c : Card)
      (h : a.pendingForceDeal = some ⟨c, none⟩) :
      Step a (chooseFDMySet a i)
  | initFD (a : AppState) (t mi : Nat) (c : Card)
      (h : a.pendingForceDeal = some ⟨c, some mi⟩)
      (hP : a.game.pendingAction = none) :
      Step a (initiateForceDeal a t)
  | initSD (a : AppState) (t : Nat) (c : Card)
      (h : a.pendingSlyDeal = some c)
      (hP : a.game.pendingAction = none) :
      Step a (initiateSlyDeal a t)

/-- States reachable from the initial game state (for deck `d` and mode
flags) by engine steps. -/
inductive Reach (d : List Card) (vsAI mp : Bool) : AppState → Prop where
  | init : Reach d vsAI mp (initApp d vsAI mp)
  | step {a b : AppState} : Reach d vsAI mp a → Step a b → Reach d vsAI mp b

/-- Card content of an optional holding slot. -/
def optCards : Option Card → Multiset Card
  | none => 0
  | some c => {c}

/-- Card content of the armed Force Deal slot. -/
def pfdCards : Option PendingForceDeal → Multiset Card
  | none => 0
  | some p => {p.card}

/-- Card content of the pending action (its triggering card). -/
def paCards : Option PendingAction → Multiset Card
  | none => 0
  | some pa => {pa.card}

/-- All cards held inside a list of property sets. -/
def propsCards : List PropertySet → Multiset Card
  | [] => 0
  | st :: ps => ↑st.cards + propsCards ps

/-- All cards a player owns (hand, bank, properties). -/
def playerCards (p : Player) : Multiset Card :=
  ↑p.hand + ↑p.bank + propsCards p.properties

/-- All cards of both players. -/
def pairCards (pp : Player × Player) : Multiset Card :=
  playerCards pp.1 + playerCards pp.2

/-- The five containers named by the specification (hands, banks,
properties, deck, discard pile). -/
def claimedCards (g : GameState) : Multiset Card :=
  pairCards g.players + ↑g.deck + ↑g.discardPile

/-- The claimed containers plus the pending action card. -/
def gameCards (g : GameState) : Multiset Card :=
  claimedCards g + paCards g.pendingAction

/-- Every card the component state holds, including the three armed
interaction slots. -/
def appCards (a : AppState) : Multiset Card :=
  gameCards a.game + optCards a.pendingRentCard + pfdCards a.pendingForceDeal +
    optCards a.pendingSlyDeal

theorem coe_append (l l' : List Card) :
    ((l ++ l' : List Card) : Multiset Card) = ↑l + ↑l' := rfl

theorem coe_cons (c : Card) (l : List Card) :
    ((c :: l : List Card) : Multiset Card) = {c} + ↑l := by
  rw [Multiset.singleton_add]; rfl

theorem coe_nil : (([] : List Card) : Multiset Card) = 0 := rfl

theorem extractFirst_cards {q : Card → Bool} :
    ∀ {l : List Card} {c : Card} {rest : List Card},
      extractFirst q l = some (c, rest) → (l : Multiset Card) = {c} + ↑rest
  | [], _, _, h => by simp [extractFirst] at h
  | x :: xs, c, rest, h => by
    by_cases hq : q x
    · rw [extractFirst, if_pos hq] at h
      simp only [Option.some.injEq, Prod.mk.injEq] at h
      obtain ⟨rfl, rfl⟩ := h
      exact coe_cons x xs
    · rw [extractFirst, if_neg hq] at h
      cases hx : extractFirst q xs with
      | none => rw [hx] at h; simp at h
      | some r =>
        obtain ⟨rc, rr⟩ := r
        rw [hx] at h
        simp only [Option.map_some', Option.some.injEq, Prod.mk.injEq] at h
        obtain ⟨rfl, rfl⟩ := h
        rw [coe_cons, coe_cons, extractFirst_cards hx]
        abel

theorem pushToSet_cards (st : PropertySet) (c : Card) :
    ((pushToSet st c).cards : Multiset Card) = {c} + ↑st.cards := by
  show ((st.cards ++ [c] : List Card) : Multiset Card) = {c} + ↑st.cards
  rw [coe_append]
  have : (([c] : List Card) : Multiset Card) = {c} := rfl
  rw [this]
  abel

theorem updateFirst_push_cards {q : PropertySet → Bool} {c : Card} :
    ∀ {ps ps' : List PropertySet},
      updateFirst q (fun st => pushToSet st c) ps = some ps' →
      propsCards ps' = {c} + propsCards ps
  | [], _, h => by simp [updateFirst] at h
  | st :: ps, ps', h => by
    by_cases hq : q st
    · rw [updateFirst, if_pos hq] at h
      simp only [Option.some.injEq] at h
      subst h
      rw [propsCards, propsCards, pushToSet_cards]
      abel
    · rw [updateFirst, if_neg hq] at h
      cases hx : updateFirst q (fun st => pushToSet st c) ps with
      | none => rw [hx] at h; simp at h
      | some r =>
        rw [hx] at h
        simp only [Option.map_some', Option.some.injEq] at h
        subst h
        rw [propsCards, propsCards, updateFirst_push_cards hx]
        abel

theorem appendNew_cards (ps : List PropertySet) (col : PropertyColor) (c : Card) :
    propsCards (ps ++ [pushToSet ⟨col, [], false⟩ c]) = {c} + propsCards ps := by
  induction ps with
  | nil =>
    rw [List.nil_append, propsCards, propsCards, pushToSet_cards]
    rfl
  | cons st ps ih =>
    rw [List.cons_append, propsCards, propsCards, ih]
    abel

theorem addToColorSet_cards (ps : List PropertySet) (col : PropertyColor) (c : Card) :
    propsCards (addToColorSet ps col c) = {c} + propsCards ps := by
  rw [addToColorSet]
  split
  next ps' h => exact updateFirst_push_cards h
  next h => exact appendNew_cards ps col c

theorem placeCard_cards (ps : List PropertySet) (c : Card) :
    propsCards (placeCard ps c) = {c} + propsCards ps := by
  rw [placeCard]
  split
  next ps' h => exact updateFirst_push_cards h
  next h =>
    split
    next ps' h2 =>
      rw [Option.bind_eq_some] at h2
      obtain ⟨sc, hsc, h2⟩ := h2
      exact updateFirst_push_cards h2
    next h2 =>
      split
      next ps' h3 => exact updateFirst_push_cards h3
      next h3 => exact appendNew_cards ps (c.color.getD .ANY) c

theorem slyAssign_cards (ps : List PropertySet) (c : Card) :
    propsCards (slyAssign ps c) = {c} + propsCards ps := by
  rw [slyAssign]
  split
  next ps' h => exact updateFirst_push_cards h
  next h =>
    split
    next ps' h2 =>
      rw [Option.bind_eq_some] at h2
      obtain ⟨sc, hsc, h2⟩ := h2
      exact updateFirst_push_cards h2
    next h2 => exact appendNew_cards ps (c.color.getD .ANY) c

theorem dropLast_cards {cards : List Card} {x : Card}
    (hl : cards.getLast? = some x) :
    (cards : Multiset Card) = {x} + ↑cards.dropLast := by
  conv_lhs => rw [← List.dropLast_append_getLast? x hl]
  rw [coe_append]
  have : (([x] : List Card) : Multiset Card) = {x} := rfl
  rw [this]
  abel

theorem popFirstNonempty_cards :
    ∀ {ps : List PropertySet} {c : Card} {ps' : List PropertySet},
      popFirstNonempty ps = some (c, ps') →
      propsCards ps = {c} + propsCards ps'
  | [], _, _, h => by simp [popFirstNonempty] at h
  | st :: ps, c, ps', h => by
    rw [popFirstNonempty] at h
    cases hl : st.cards.getLast? with
    | none =>
      rw [hl] at h
      cases hx : popFirstNonempty ps with
      | none => rw [hx] at h; simp at h
      | some r =>
        obtain ⟨rc, rr⟩ := r
        rw [hx] at h
        simp only [Option.map_some', Option.some.injEq, Prod.mk.injEq] at h
        obtain ⟨rfl, rfl⟩ := h
        rw [propsCards, propsCards, popFirstNonempty_cards hx]
        abel
    | some x =>
      rw [hl] at h
      dsimp only at h
      by_cases he : st.cards.dropLast.isEmpty
      · rw [if_pos he] at h
        simp only [Option.some.injEq, Prod.mk.injEq] at h
        obtain ⟨rfl, rfl⟩ := h
        have hnil : st.cards.dropLast = [] := List.isEmpty_iff.mp he
        rw [propsCards, dropLast_cards hl, hnil, coe_nil]
        abel
      · rw [if_neg he] at h
        simp only [Option.some.injEq, Prod.mk.injEq] at h
        obtain ⟨rfl, rfl⟩ := h
        rw [propsCards, propsCards, dropLast_cards hl]
        abel

theorem popSetAt_cards :
    ∀ {ps : List PropertySet} {i : Nat} {c : Card} {ps' : List PropertySet},
      popSetAt ps i = some (c, ps') →
      propsCards ps = {c} + propsCards ps'
  | [], _, _, _, h => by simp [popSetAt] at h
  | st :: ps, 0, c, ps', h => by
    rw [popSetAt] at h
    cases hl : st.cards.getLast? with
    | none => rw [hl] at h; simp at h
    | some x =>
      rw [hl] at h
      dsimp only at h
      by_cases he : st.cards.dropLast.isEmpty
      · rw [if_pos he] at h
        simp only [Option.some.injEq, Prod.mk.injEq] at h
        obtain ⟨rfl, rfl⟩ := h
        have hnil : st.cards.dropLast = [] := List.isEmpty_iff.mp he
        rw [propsCards, dropLast_cards hl, hnil, coe_nil]
        abel
      · rw [if_neg he] at h
        simp only [Option.some.injEq, Prod.mk.injEq] at h
        obtain ⟨rfl, rfl⟩ := h
        rw [propsCards, propsCards, dropLast_cards hl]
        abel
  | st :: ps, i + 1, c, ps', h => by
    rw [popSetAt] at h
    cases hx : popSetAt ps i with
    | none => rw [hx] at h; simp at h
    | some r =>
      obtain ⟨rc, rr⟩ := r
      rw [hx] at h
      simp only [Option.map_some', Option.some.injEq, Prod.mk.injEq] at h
      obtain ⟨rfl, rfl⟩ := h
      rw [propsCards, propsCards, popSetAt_cards hx]
      abel

theorem takeFirstComplete_cards :
    ∀ {ps : List PropertySet} {t : PropertySet} {ps' : List PropertySet},
      takeFirstComplete ps = some (t, ps') →
      propsCards ps = ↑t.cards + propsCards ps'
  | [], _, _, h => by simp [takeFirstComplete] at h
  | st :: ps, t, ps', h => by
    rw [takeFirstComplete] at h
    by_cases hc : st.isComplete
    · rw [if_pos hc] at h
      simp only [Option.some.injEq, Prod.mk.injEq] at h
      obtain ⟨rfl, rfl⟩ := h
      rfl
    · rw [if_neg hc] at h
      cases hx : takeFirstComplete ps with
      | none => rw [hx] at h; simp at h
      | some r =>
        obtain ⟨rt, rr⟩ := r
        rw [hx] at h
        simp only [Option.map_some', Option.some.injEq, Prod.mk.injEq] at h
        obtain ⟨rfl, rfl⟩ := h
        rw [propsCards, propsCards, takeFirstComplete_cards hx]
        abel

theorem take_drop_cards (n : Nat) (l : List Card) :
    ((l.take n : List Card) : Multiset Card) + ↑(l.drop n) = ↑l := by
  rw [← coe_append, List.take_append_drop]

theorem sortBank_cards (bank : List Card) :
    ((sortBank bank : List Card) : Multiset Card) = ↑bank :=
  Quot.sound (List.perm_insertionSort _ _)

theorem pairCards_mk (i : Fin 2) (p q : Player) :
    pairCards (mkPlayers i p q) = playerCards p + playerCards q := by
  rw [mkPlayers]
  by_cases h : i = 0
  · rw [if_pos h]
    rfl
  · rw [if_neg h]
    show playerCards q + playerCards p = _
    abel

theorem pairCards_decomp (s : GameState) (i : Fin 2) :
    pairCards s.players = playerCards (s.getP i) + playerCards (s.getP (oppIdx i)) := by
  fin_cases i
  · rfl
  · show _ = playerCards s.players.2 + playerCards s.players.1
    rw [pairCards]
    abel

theorem gameCards_checkWin (s : GameState) :
    gameCards (checkWinCondition s) = gameCards s := by
  rw [checkWinCondition]
  split <;> rfl

theorem checkWin_players (s : GameState) :
    (checkWinCondition s).players = s.players := by
  rw [checkWinCondition]
  split <;> rfl

theorem checkWin_deck (s : GameState) :
    (checkWinCondition s).deck = s.deck := by
  rw [checkWinCondition]
  split <;> rfl

theorem checkWin_discard (s : GameState) :
    (checkWinCondition s).discardPile = s.discardPile := by
  rw [checkWinCondition]
  split <;> rfl

theorem checkWin_pending (s : GameState) :
    (checkWinCondition s).pendingAction = s.pendingAction := by
  rw [checkWinCondition]
  split <;> rfl

theorem payBank_cards :
    ∀ (bank toBank : List Card) (rem : Int) (log : List String) (n : String),
      ((payBank bank toBank rem log n).1 : Multiset Card) +
        ↑(payBank bank toBank rem log n).2.1 = ↑bank + ↑toBank
  | [], tb, rem, log, n => by rw [payBank]
  | c :: rest, tb, rem, log, n => by
    rw [payBank]
    by_cases h : 0 < rem
    · rw [if_pos h]
      dsimp only
      rw [payBank_cards rest (tb ++ [c]) _ _ n, coe_cons, coe_append]
      have : (([c] : List Card) : Multiset Card) = {c} := rfl
      rw [this]
      abel
    · rw [if_neg h]

theorem payPropsAux_cards :
    ∀ (fuel : Nat) (fp tp : List PropertySet) (rem : Int) (log : List String) (n : String),
      propsCards (payPropsAux fuel fp tp rem log n).1 +
        propsCards (payPropsAux fuel fp tp rem log n).2.1 =
      propsCards fp + propsCards tp
  | 0, fp, tp, rem, log, n => by rw [payPropsAux]
  | fuel + 1, fp, tp, rem, log, n => by
    rw [payPropsAux]
    by_cases h : 0 < rem ∧ fp ≠ []
    · rw [if_pos h]
      cases hpop : popFirstNonempty fp with
      | none => rfl
      | some r =>
        obtain ⟨c, fp'⟩ := r
        dsimp only
        rw [payPropsAux_cards fuel fp' _ _ _ n, addToColorSet_cards,
          popFirstNonempty_cards hpop]
        abel
    · rw [if_neg h]

theorem payProps_cards (fp tp : List PropertySet) (rem : Int) (log : List String)
    (n : String) :
    propsCards (payProps fp tp rem log n).1 +
      propsCards (payProps fp tp rem log n).2.1 =
    propsCards fp + propsCards tp :=
  payPropsAux_cards _ fp tp rem log n

theorem processPayment_cards (f t : Player) (amount : Int) (log : List String) :
    playerCards (processPayment f t amount log).1 +
      playerCards (processPayment f t amount log).2.1 =
    playerCards f + playerCards t := by
  rw [processPayment]
  dsimp only
  rw [playerCards, playerCards, playerCards, playerCards]
  have hbank := payBank_cards (sortBank f.bank) t.bank amount log f.name
  rw [sortBank_cards] at hbank
  have hprops := payProps_cards f.properties t.properties
    (payBank (sortBank f.bank) t.bank amount log f.name).2.2.1
    (payBank (sortBank f.bank) t.bank amount log f.name).2.2.2 f.name
  calc ↑f.hand + ↑(payBank (sortBank f.bank) t.bank amount log f.name).1 +
        propsCards (payProps f.properties t.properties
          (payBank (sortBank f.bank) t.bank amount log f.name).2.2.1
          (payBank (sortBank f.bank) t.bank amount log f.name).2.2.2 f.name).1 +
        (↑t.hand + ↑(payBank (sortBank f.bank) t.bank amount log f.name).2.1 +
         propsCards (payProps f.properties t.properties
          (payBank (sortBank f.bank) t.bank amount log f.name).2.2.1
          (payBank (sortBank f.bank) t.bank amount log f.name).2.2.2 f.name).2.1) =
      (↑f.hand + ↑t.hand) +
        ((↑(payBank (sortBank f.bank) t.bank amount log f.name).1 +
          ↑(payBank (sortBank f.bank) t.bank amount log f.name).2.1) +
         (propsCards (payProps f.properties t.properties
            (payBank (sortBank f.bank) t.bank amount log f.name).2.2.1
            (payBank (sortBank f.bank) t.bank amount log f.name).2.2.2 f.name).1 +
          propsCards (payProps f.properties t.properties
            (payBank (sortBank f.bank) t.bank amount log f.name).2.2.1
            (payBank (sortBank f.bank) t.bank amount log f.name).2.2.2 f.name).2.1)) := by
        abel
    _ = (↑f.hand + ↑t.hand) + ((↑f.bank + ↑t.bank) +
          (propsCards f.properties + propsCards t.properties)) := by
        rw [hbank, hprops]
    _ = ↑f.hand + ↑f.bank + propsCards f.properties +
          (↑t.hand + ↑t.bank + propsCards t.properties) := by
        abel

theorem applyEffect_keeps (s : GameState) (pa : PendingAction) :
    pairCards (applyEffect s pa).players = pairCards s.players ∧
    (applyEffect s pa).deck = s.deck ∧
    (applyEffect s pa).discardPile = s.discardPile ∧
    (applyEffect s pa).pendingAction = s.pendingAction ∧
    (applyEffect s pa).actionsRemaining = s.actionsRemaining ∧
    (applyEffect s pa).activePlayerIndex = s.activePlayerIndex ∧
    (applyEffect s pa).winner = s.winner ∧
    (applyEffect s pa).phase = s.phase := by
  rw [applyEffect]
  cases hty : pa.type with
  | FORCE_DEAL =>
    dsimp only
    cases hmi : pa.mySetIndex with
    | none => exact ⟨rfl, rfl, rfl, rfl, rfl, rfl, rfl, rfl⟩
    | some mi =>
      cases hti : pa.targetSetIndex with
      | none => exact ⟨rfl, rfl, rfl, rfl, rfl, rfl, rfl, rfl⟩
      | some ti =>
        dsimp only
        cases hp1 : popSetAt (s.getP pa.attackerIndex).properties mi with
        | none => exact ⟨rfl, rfl, rfl, rfl, rfl, rfl, rfl, rfl⟩
        | some r1 =>
          obtain ⟨myCard, attProps1⟩ := r1
          cases hp2 : popSetAt (s.getP (oppIdx pa.attackerIndex)).properties ti with
          | none => exact ⟨rfl, rfl, rfl, rfl, rfl, rfl, rfl, rfl⟩
          | some r2 =>
            obtain ⟨oppCard, oppProps1⟩ := r2
            refine ⟨?_, rfl, rfl, rfl, rfl, rfl, rfl, rfl⟩
            rw [pairCards_mk, pairCards_decomp s pa.attackerIndex,
              playerCards, playerCards, playerCards, playerCards]
            dsimp only
            rw [placeCard_cards, placeCard_cards, popSetAt_cards hp1, popSetAt_cards hp2]
            abel
  | SLY_DEAL =>
    dsimp only
    cases hti : pa.targetSetIndex with
    | none => exact ⟨rfl, rfl, rfl, rfl, rfl, rfl, rfl, rfl⟩
    | some ti =>
      dsimp only
      cases hts : (s.getP (oppIdx pa.attackerIndex)).properties[ti]? with
      | none => exact ⟨rfl, rfl, rfl, rfl, rfl, rfl, rfl, rfl⟩
      | some ts =>
        dsimp only
        by_cases hok : ts.isComplete = false ∧ ts.cards ≠ []
        · rw [if_pos hok]
          cases hp : popSetAt (s.getP (oppIdx pa.attackerIndex)).properties ti with
          | none => exact ⟨rfl, rfl, rfl, rfl, rfl, rfl, rfl, rfl⟩
          | some r =>
            obtain ⟨stolen, oppProps1⟩ := r
            refine ⟨?_, rfl, rfl, rfl, rfl, rfl, rfl, rfl⟩
            rw [pairCards_mk, pairCards_decomp s pa.attackerIndex,
              playerCards, playerCards, playerCards, playerCards]
            dsimp only
            rw [slyAssign_cards, popSetAt_cards hp]
            abel
        · rw [if_neg hok]
          exact ⟨rfl, rfl, rfl, rfl, rfl, rfl, rfl, rfl⟩
  | DEAL_BREAKER =>
    dsimp only
    cases htk : takeFirstComplete (s.getP (oppIdx pa.attackerIndex)).properties with
    | none => exact ⟨rfl, rfl, rfl, rfl, rfl, rfl, rfl, rfl⟩
    | some r =>
      obtain ⟨ts, oppProps1⟩ := r
      refine ⟨?_, rfl, rfl, rfl, rfl, rfl, rfl, rfl⟩
      rw [pairCards_mk, pairCards_decomp s pa.attackerIndex,
        playerCards, playerCards, playerCards, playerCards]
      dsimp only
      have happ : propsCards ((s.getP pa.attackerIndex).properties ++ [ts]) =
          propsCards (s.getP pa.attackerIndex).properties + ↑ts.cards := by
        clear htk
        induction (s.getP pa.attackerIndex).properties with
        | nil => rw [List.nil_append, propsCards, propsCards, propsCards]; abel
        | cons st ps ih => rw [List.cons_append, propsCards, propsCards, ih]; abel
      rw [happ, takeFirstComplete_cards htk]
      abel
  | DEBT_COLLECTOR =>
    dsimp only
    refine ⟨?_, rfl, rfl, rfl, rfl, rfl, rfl, rfl⟩
    rw [pairCards_mk, pairCards_decomp s pa.attackerIndex]
    have := processPayment_cards (s.getP (oppIdx pa.attackerIndex)) (s.getP pa.attackerIndex) 5
      (((s.getP pa.attackerIndex).name ++ " used Debt Collector: " ++
        (s.getP (oppIdx pa.attackerIndex)).name ++ " owes 5M.") :: s.logs)
    rw [add_comm] at this
    rw [this]
    abel
  | BIRTHDAY =>
    dsimp only
    refine ⟨?_, rfl, rfl, rfl, rfl, rfl, rfl, rfl⟩
    rw [pairCards_mk, pairCards_decomp s pa.attackerIndex]
    have := processPayment_cards (s.getP (oppIdx pa.attackerIndex)) (s.getP pa.attackerIndex) 2
      (((s.getP pa.attackerIndex).name ++ " used It\x27s My Birthday! " ++
        (s.getP (oppIdx pa.attackerIndex)).name ++ " owes 2M.") :: s.logs)
    rw [add_comm] at this
    rw [this]
    abel
  | RENT_ALL => exact ⟨rfl, rfl, rfl, rfl, rfl, rfl, rfl, rfl⟩

theorem gameCards_resolve (s : GameState) (b : Bool) :
    gameCards (resolvePendingAction s b) = gameCards s := by
  rw [resolvePendingAction]
  cases hpa : s.pendingAction with
  | none => rfl
  | some pa =>
    dsimp only
    cases hjsn : (if b then
        extractFirst (fun c => c.name == "Just Say No") (s.getP (jsnResponder pa)).hand
      else none) with
    | some r =>
      obtain ⟨jsnCard, rest⟩ := r
      have hext : extractFirst (fun c => c.name == "Just Say No")
          (s.getP (jsnResponder pa)).hand = some (jsnCard, rest) := by
        by_cases hb : b
        · rwa [if_pos hb] at hjsn
        · rw [if_neg hb] at hjsn; exact absurd hjsn (by simp)
      rw [gameCards, gameCards, claimedCards, claimedCards, hpa,
        pairCards_decomp s (jsnResponder pa)]
      simp only [pairCards_mk, playerCards, paCards, coe_append]
      rw [extractFirst_cards hext]
      have h1 : (([jsnCard] : List Card) : Multiset Card) = {jsnCard} := rfl
      rw [h1]
      abel
    | none =>
      by_cases hodd : pa.jsnStack % 2 = 1
      · rw [if_pos hodd]
        rw [gameCards, gameCards, claimedCards, claimedCards, hpa]
        dsimp only
        rw [coe_append, paCards, paCards]
        have : (([pa.card] : List Card) : Multiset Card) = {pa.card} := rfl
        rw [this]
        abel
      · rw [if_neg hodd]
        rw [gameCards_checkWin]
        obtain ⟨hpair, hdeck, hdisc, hpend, _, _, _, _⟩ := applyEffect_keeps s pa
        rw [gameCards, gameCards, claimedCards, claimedCards, hpa]
        dsimp only
        rw [hpair, hdeck, hdisc, coe_append, paCards, paCards]
        have : (([pa.card] : List Card) : Multiset Card) = {pa.card} := rfl
        rw [this]
        abel

theorem coe_singleton (c : Card) : (([c] : List Card) : Multiset Card) = {c} := rfl

theorem processPayment_cards' (f t : Player) (amount : Int) (log : List String) :
    playerCards (processPayment f t amount log).2.1 +
      playerCards (processPayment f t amount log).1 =
    playerCards t + playerCards f := by
  rw [add_comm, processPayment_cards, add_comm]

theorem appCards_executeMove (a : AppState) (mt : MoveType) (cid : String)
    (r1 r2 : Nat) (hR : a.pendingRentCard = none) (hF : a.pendingForceDeal = none)
    (hS : a.pendingSlyDeal = none) :
    appCards (executeMove a mt cid r1 r2) = appCards a := by
  rw [executeMove]
  by_cases hg : a.game.actionsRemaining ≤ 0 ∨ a.game.phase ≠ .PLAY_PHASE ∨
      isTruthy a.game.winner = true ∨ a.game.pendingAction ≠ none
  · rw [if_pos hg]
  · rw [if_neg hg]
    have hpa : a.game.pendingAction = none := by
      by_contra hne
      exact hg (Or.inr (Or.inr (Or.inr hne)))
    dsimp only
    cases hx : extractFirst (fun c => c.id == cid)
        (a.game.getP a.game.activePlayerIndex).hand with
    | none => rfl
    | some r =>
      obtain ⟨card, rest⟩ := r
      have hhand := extractFirst_cards hx
      cases mt with
      | BANK =>
        dsimp only
        simp only [appCards, gameCards, claimedCards, checkWin_players, checkWin_deck, checkWin_discard, checkWin_pending, hR, hF, hS,
          hpa, optCards, pfdCards, paCards, pairCards_mk, playerCards, coe_append,
          coe_singleton]
        rw [pairCards_decomp a.game a.game.activePlayerIndex]
        simp only [playerCards]
        rw [hhand]
        abel
      | PROPERTY =>
        dsimp only
        by_cases ht : card.type ≠ .PROPERTY ∧ card.type ≠ .WILD
        · rw [if_pos ht]
        · rw [if_neg ht]
          simp only [appCards, gameCards, claimedCards, checkWin_players, checkWin_deck, checkWin_discard, checkWin_pending, hR, hF, hS,
            hpa, optCards, pfdCards, paCards, pairCards_mk, playerCards,
            addToColorSet_cards, coe_append, coe_singleton]
          rw [pairCards_decomp a.game a.game.activePlayerIndex]
          simp only [playerCards]
          rw [hhand]
          abel
      | ACTION_PLAY =>
        dsimp only
        by_cases hrent : card.type = .RENT
        · rw [if_pos hrent]
          simp only [appCards, gameCards, claimedCards, hR, hF, hS, hpa,
            optCards, pfdCards, paCards, pairCards_mk, playerCards]
          rw [pairCards_decomp a.game a.game.activePlayerIndex]
          simp only [playerCards]
          rw [hhand]
          abel
        · rw [if_neg hrent]
          by_cases hfd : card.name = "Force Deal"
          · rw [if_pos hfd]
            by_cases hai : (a.game.getP a.game.activePlayerIndex).isAI = true
            · rw [if_pos hai]
              by_cases htg : eligibleIdxs (a.game.getP a.game.activePlayerIndex).properties ≠ [] ∧
                  eligibleIdxs (a.game.getP (oppIdx a.game.activePlayerIndex)).properties ≠ []
              · rw [if_pos htg]
                simp only [appCards, gameCards, claimedCards, hR, hF, hS, hpa,
                  optCards, pfdCards, paCards, pairCards_mk, playerCards]
                rw [pairCards_decomp a.game a.game.activePlayerIndex]
                simp only [playerCards]
                rw [hhand]
                abel
              · rw [if_neg htg]
                simp only [appCards, gameCards, claimedCards, hR, hF, hS, hpa,
                  optCards, pfdCards, paCards, pairCards_mk, playerCards, coe_append,
                  coe_singleton]
                rw [pairCards_decomp a.game a.game.activePlayerIndex]
                simp only [playerCards]
                rw [hhand]
                abel
            · rw [if_neg hai]
              simp only [appCards, gameCards, claimedCards, hR, hF, hS, hpa,
                optCards, pfdCards, paCards, pairCards_mk, playerCards]
              rw [pairCards_decomp a.game a.game.activePlayerIndex]
              simp only [playerCards]
              rw [hhand]
              abel
          · rw [if_neg hfd]
            by_cases hsd : card.name = "Sly Deal"
            · rw [if_pos hsd]
              by_cases hai : (a.game.getP a.game.activePlayerIndex).isAI = true
              · rw [if_pos hai]
                by_cases htg : eligibleIdxs
                    (a.game.getP (oppIdx a.game.activePlayerIndex)).properties ≠ []
                · rw [if_pos htg]
                  simp only [appCards, gameCards, claimedCards, hR, hF, hS, hpa,
                    optCards, pfdCards, paCards, pairCards_mk, playerCards]
                  rw [pairCards_decomp a.game a.game.activePlayerIndex]
                  simp only [playerCards]
                  rw [hhand]
                  abel
                · rw [if_neg htg]
                  simp only [appCards, gameCards, claimedCards, hR, hF, hS, hpa,
                    optCards, pfdCards, paCards, pairCards_mk, playerCards, coe_append,
                    coe_singleton]
                  rw [pairCards_decomp a.game a.game.activePlayerIndex]
                  simp only [playerCards]
                  rw [hhand]
                  abel
              · rw [if_neg hai]
                simp only [appCards, gameCards, claimedCards, hR, hF, hS, hpa,
                  optCards, pfdCards, paCards, pairCards_mk, playerCards]
                rw [pairCards_decomp a.game a.game.activePlayerIndex]
                simp only [playerCards]
                rw [hhand]
                abel
            · rw [if_neg hsd]
              by_cases hdb : card.name = "Deal Breaker" ∨ card.name = "Debt Collector" ∨
                  card.name = "It\x27s My Birthday"
              · rw [if_pos hdb]
                simp only [appCards, gameCards, claimedCards, checkWin_players, checkWin_deck, checkWin_discard, checkWin_pending, hR, hF,
                  hS, hpa, optCards, pfdCards, paCards, pairCards_mk, playerCards]
                rw [pairCards_decomp a.game a.game.activePlayerIndex]
                simp only [playerCards]
                rw [hhand]
                abel
              · rw [if_neg hdb]
                by_cases hpg : card.name = "Pass Go"
                · rw [if_pos hpg]
                  simp only [appCards, gameCards, claimedCards, checkWin_players, checkWin_deck,
                    checkWin_discard, checkWin_pending, hR,
                    hF, hS, hpa, optCards, pfdCards, paCards, pairCards_mk, playerCards,
                    coe_append, coe_singleton]
                  rw [pairCards_decomp a.game a.game.activePlayerIndex]
                  simp only [playerCards]
                  rw [hhand, ← take_drop_cards 2 a.game.deck]
                  abel
                · rw [if_neg hpg]
                  simp only [appCards, gameCards, claimedCards, checkWin_players, checkWin_deck,
                    checkWin_discard, checkWin_pending, hR,
                    hF, hS, hpa, optCards, pfdCards, paCards, pairCards_mk, playerCards,
                    coe_append, coe_singleton]
                  rw [pairCards_decomp a.game a.game.activePlayerIndex]
                  simp only [playerCards]
                  rw [hhand]
                  abel

theorem gameCards_startTurn (s : GameState) :
    gameCards (startTurn s) = gameCards s := by
  rw [startTurn]
  by_cases h : s.phase = .START_TURN
  · rw [if_pos h]
    rw [gameCards, gameCards, claimedCards, claimedCards]
    dsimp only
    rw [pairCards_mk, pairCards_decomp s s.activePlayerIndex]
    simp only [playerCards, coe_append]
    rw [← take_drop_cards (if (s.getP s.activePlayerIndex).hand = [] then 5 else 2) s.deck]
    abel
  · rw [if_neg h]

theorem appCards_endTurn (a : AppState) (hR : a.pendingRentCard = none)
    (hF : a.pendingForceDeal = none) (hS : a.pendingSlyDeal = none) :
    appCards (endTurn a) = appCards a := by
  rw [endTurn]
  by_cases h : a.game.phase = .PLAY_PHASE
  · rw [if_pos h]
    simp only [appCards, gameCards, claimedCards, hR, hF, hS, optCards, pfdCards, paCards]
  · rw [if_neg h]
    simp only [appCards, gameCards, claimedCards, hR, hF, hS, optCards, pfdCards, paCards]

theorem appCards_rent (a : AppState) (iSet : Nat) (c : Card)
    (h : a.pendingRentCard = some c) :
    appCards (handleRentCollection a iSet) = appCards a := by
  rw [handleRentCollection, h]
  dsimp only
  cases hts : (a.game.getP a.game.activePlayerIndex).properties[iSet]? with
  | none => rfl
  | some ts =>
    dsimp only
    simp only [appCards, gameCards, claimedCards, checkWin_players, checkWin_deck,
      checkWin_discard, checkWin_pending, h, optCards, pfdCards, paCards,
      pairCards_mk, processPayment_cards', coe_append, coe_singleton]
    rw [pairCards_decomp a.game a.game.activePlayerIndex]
    abel

theorem appCards_chooseMy (a : AppState) (i : Nat) :
    appCards (chooseFDMySet a i) = appCards a := by
  rw [chooseFDMySet]
  cases h : a.pendingForceDeal with
  | none => rfl
  | some pfd =>
    simp only [appCards, gameCards, claimedCards, h, optCards, pfdCards, paCards]

theorem appCards_initFD (a : AppState) (t mi : Nat) (c : Card)
    (h : a.pendingForceDeal = some ⟨c, some mi⟩)
    (hP : a.game.pendingAction = none) :
    appCards (initiateForceDeal a t) = appCards a := by
  rw [initiateForceDeal, h]
  simp only [appCards, gameCards, claimedCards, h, hP, optCards, pfdCards, paCards]
  abel

theorem appCards_initSD (a : AppState) (t : Nat) (c : Card)
    (h : a.pendingSlyDeal = some c) (hP : a.game.pendingAction = none) :
    appCards (initiateSlyDeal a t) = appCards a := by
  rw [initiateSlyDeal, h]
  simp only [appCards, gameCards, claimedCards, h, hP, optCards, pfdCards, paCards]
  abel

theorem appCards_init (d : List Card) (vsAI mp : Bool) :
    appCards (initApp d vsAI mp) = ↑d := by
  rw [initApp]
  simp only [appCards, gameCards, claimedCards, optCards, pfdCards, paCards,
    pairCards, playerCards, propsCards, coe_nil]
  rw [← take_drop_cards 5 d, ← take_drop_cards 5 (List.drop 5 d)]
  abel

/-- C1 (amended): card conservation over all reachable component states,
where the accounted containers are the deck, the discard pile, both players'
hands, banks and properties, PLUS the pending action's triggering card and
the cards held by the armed rent / Force Deal / Sly Deal interaction slots.
The multiset of those cards always equals the shuffled deck handed to
initializeGame.  (The claimed five-container version is refuted by
claimed_conservation_fails: a played action card lives in the pending action,
outside the five containers.) -/
theorem reach_card_conservation (d : List Card) (vsAI mp : Bool) (a : AppState)
    (h : Reach d vsAI mp a) : appCards a = (d : Multiset Card) := by
  induction h with
  | init => exact appCards_init d vsAI mp
  | step hr hs ih =>
    cases hs with
    | exec mt cid r1 r2 hR hF hS =>
      rw [appCards_executeMove _ mt cid r1 r2 hR hF hS, ih]
    | resolve b =>
      rw [appCards, gameCards_resolve]
      exact ih
    | rent i c h hi => rw [appCards_rent _ i c h, ih]
    | start =>
      rw [appCards, gameCards_startTurn]
      exact ih
    | endT hR hF hS hP => rw [appCards_endTurn _ hR hF hS, ih]
    | chooseMy i c h => rw [appCards_chooseMy _ i, ih]
    | initFD t mi c h hP => rw [appCards_initFD _ t mi c h hP, ih]
    | initSD t c h hP => rw [appCards_initSD _ t c h hP, ih]

/-- Witness for reach_card_conservation at a concrete initial state. -/
theorem reach_card_conservation_witness :
    appCards (initApp (initialDeckList.take 12) false false) =
      ((initialDeckList.take 12 : List Card) : Multiset Card) :=
  reach_card_conservation (initialDeckList.take 12) false false _ Reach.init

/-- The first Debt Collector of the deck. -/
def dcCard : Card := mkCard 0 "Debt Collector" .ACTION 3 none none (some "Collect 5M from one player.")

/-- A shuffle outcome of INITIAL_DECK that puts a Debt Collector on top (the
Fisher-Yates shuffle of the source can produce any permutation). -/
def d0C1 : List Card := dcCard :: initialDeckList.filter (fun c => c.id != "Debt Collector-0")

def sC1a : AppState := initApp d0C1 false false
def sC1b : AppState := { sC1a with game := startTurn sC1a.game }
def sC1bad : AppState := executeMove sC1b .ACTION_PLAY "Debt Collector-0" 0 0

/-- C1 counterexample: the claimed conservation over exactly the five
containers (deck, discard, hands, banks, properties) fails in a reachable
state.  After startTurn and playing a Debt Collector, the played card sits in
`pendingAction` and the five containers hold only 89 of the 90 deck cards. -/
theorem claimed_conservation_fails :
    (d0C1 : Multiset Card) = (initialDeckList : Multiset Card) ∧
    Reach d0C1 false false sC1bad ∧
    Multiset.card (claimedCards sC1bad.game) ≠ initialDeckList.length := by
  refine ⟨by decide, ?_, by decide⟩
  exact Reach.step (Reach.step Reach.init (Step.start sC1a))
    (Step.exec sC1b .ACTION_PLAY "Debt Collector-0" 0 0 rfl rfl rfl)

/-- Total monetary value of a list of cards. -/
def valC (l : List Card) : Nat := (l.map fun c => c.value).sum

/-- Total monetary value of a multiset of cards. -/
def mval (m : Multiset Card) : Nat := (m.map fun c => c.value).sum

/-- Total monetary value held in property sets. -/
def propsVal (ps : List PropertySet) : Nat := mval (propsCards ps)

/-- The debtor-reachable asset value of a player: bank plus properties (the
hand is never liquidated by processPayment). -/
def assetVal (p : Player) : Nat := valC p.bank + propsVal p.properties

theorem mval_add (m n : Multiset Card) : mval (m + n) = mval m + mval n := by
  rw [mval, mval, mval, Multiset.map_add, Multiset.sum_add]

theorem mval_coe (l : List Card) : mval ↑l = valC l := rfl

theorem mval_singleton (c : Card) : mval {c} = c.value := by
  rw [mval]
  simp

theorem valC_cons (c : Card) (l : List Card) : valC (c :: l) = c.value + valC l := by
  rw [valC, valC, List.map_cons, List.sum_cons]

theorem propTotal_eq_card (ps : List PropertySet) :
    propTotal ps = Multiset.card (propsCards ps) := by
  induction ps with
  | nil => rfl
  | cons st l ih =>
    rw [propsCards, Multiset.card_add, ← ih]
    show (List.map _ (st :: l)).sum = _
    rw [List.map_cons, List.sum_cons]
    rfl

theorem popFirstNonempty_propTotal {ps : List PropertySet} {c : Card}
    {ps' : List PropertySet} (h : popFirstNonempty ps = some (c, ps')) :
    propTotal ps = propTotal ps' + 1 := by
  rw [propTotal_eq_card, propTotal_eq_card, popFirstNonempty_cards h,
    Multiset.card_add]
  simp [add_comm]

theorem popFirstNonempty_none :
    ∀ {ps : List PropertySet}, popFirstNonempty ps = none → propsCards ps = 0
  | [], _ => rfl
  | st :: ps, h => by
    rw [popFirstNonempty] at h
    cases hl : st.cards.getLast? with
    | none =>
      rw [hl] at h
      cases hx : popFirstNonempty ps with
      | none =>
        have hnil : st.cards = [] := by
          cases hc : st.cards with
          | nil => rfl
          | cons y ys => rw [hc] at hl; simp at hl
        rw [propsCards, hnil, coe_nil, popFirstNonempty_none hx, add_zero]
      | some r => rw [hx] at h; simp at h
    | some x =>
      rw [hl] at h
      dsimp only at h
      split at h <;> simp at h

theorem propTotal_zero_pop :
    ∀ {ps : List PropertySet}, propTotal ps = 0 → popFirstNonempty ps = none
  | [], _ => rfl
  | st :: ps, h => by
    have hlen : st.cards.length = 0 ∧ propTotal ps = 0 := by
      rw [propTotal] at h
      rw [List.map_cons, List.sum_cons] at h
      constructor
      · omega
      · rw [propTotal]; omega
    have hnil : st.cards = [] := List.length_eq_zero.mp hlen.1
    rw [popFirstNonempty, hnil]
    show Option.map _ (popFirstNonempty ps) = none
    rw [propTotal_zero_pop hlen.2]
    rfl

theorem payPropsAux_nonpos (fuel : Nat) (fp tp : List PropertySet) (rem : Int)
    (log : List String) (n : String) (h : ¬ 0 < rem) :
    payPropsAux fuel fp tp rem log n = (fp, tp, rem, log) := by
  cases fuel with
  | zero => rfl
  | succ fuel =>
    rw [payPropsAux, if_neg]
    intro hc
    exact h hc.1

theorem payPropsAux_succ :
    ∀ (fuel : Nat) (fp tp : List PropertySet) (rem : Int) (log : List String)
      (n : String), propTotal fp ≤ fuel →
      payPropsAux (fuel + 1) fp tp rem log n = payPropsAux fuel fp tp rem log n
  | 0, fp, tp, rem, log, n, h => by
    have hpop : popFirstNonempty fp = none := propTotal_zero_pop (by omega)
    rw [payPropsAux, payPropsAux, hpop]
    split <;> rfl
  | fuel + 1, fp, tp, rem, log, n, h => by
    rw [payPropsAux]
    conv_rhs => rw [payPropsAux]
    by_cases hg : 0 < rem ∧ fp ≠ []
    · rw [if_pos hg, if_pos hg]
      cases hpop : popFirstNonempty fp with
      | none => rfl
      | some r =>
        obtain ⟨c, fp'⟩ := r
        dsimp only
        have : propTotal fp' ≤ fuel := by
          have := popFirstNonempty_propTotal hpop
          omega
        exact payPropsAux_succ fuel fp' _ _ _ n this
    · rw [if_neg hg, if_neg hg]

theorem payPropsAux_ge :
    ∀ (k : Nat) (fp tp : List PropertySet) (rem : Int) (log : List String)
      (n : String),
      payPropsAux (propTotal fp + k) fp tp rem log n = payProps fp tp rem log n
  | 0, fp, tp, rem, log, n => rfl
  | k + 1, fp, tp, rem, log, n => by
    have : propTotal fp + (k + 1) = (propTotal fp + k) + 1 := by omega
    rw [this, payPropsAux_succ (propTotal fp + k) fp tp rem log n (by omega),
      payPropsAux_ge k fp tp rem log n]

theorem payPropsAux_fuel (fuel : Nat) (fp tp : List PropertySet) (rem : Int)
    (log : List String) (n : String) (h : propTotal fp ≤ fuel) :
    payPropsAux fuel fp tp rem log n = payProps fp tp rem log n := by
  have : fuel = propTotal fp + (fuel - propTotal fp) := by omega
  rw [this, payPropsAux_ge]

/-- C10: termination of the settlement loops.  The bank loop is structural
recursion on the debtor's bank.  For the property loop: every successful
iteration removes exactly one card from the debtor's sets (first conjunct);
once no non-empty set remains the loop guard is false (second conjunct,
both directions); therefore the loop stabilises within `propTotal` of the
debtor's property cards iterations — any fuel at least that large, including
for amounts exceeding the debtor's assets and for zero-value cards, computes
the same result as `payProps`. -/
theorem payProps_terminates :
    (∀ (fp : List PropertySet) (c : Card) (fp' : List PropertySet),
        popFirstNonempty fp = some (c, fp') → propTotal fp = propTotal fp' + 1) ∧
    (∀ fp : List PropertySet, popFirstNonempty fp = none ↔ propTotal fp = 0) ∧
    (∀ (fuel : Nat) (fp tp : List PropertySet) (rem : Int) (log : List String)
        (n : String), propTotal fp ≤ fuel →
        payPropsAux fuel fp tp rem log n = payProps fp tp rem log n) := by
  refine ⟨fun fp c fp' h => popFirstNonempty_propTotal h, fun fp => ⟨?_, ?_⟩,
    payPropsAux_fuel⟩
  · intro h
    rw [propTotal_eq_card, popFirstNonempty_none h]
    rfl
  · exact propTotal_zero_pop

/-- Witness for payProps_terminates at concrete inputs. -/
theorem payProps_terminates_witness :
    propTotal [PropertySet.mk .BROWN [dcCard] false] =
        propTotal ([] : List PropertySet) + 1 ∧
    payPropsAux 7 [PropertySet.mk .BROWN [dcCard] false] [] 5 [] "d" =
      payProps [PropertySet.mk .BROWN [dcCard] false] [] 5 [] "d" := by
  constructor
  · exact payProps_terminates.1 [PropertySet.mk .BROWN [dcCard] false] dcCard []
      (by decide)
  · exact payProps_terminates.2.2 7 [PropertySet.mk .BROWN [dcCard] false] [] 5 [] "d"
      (by decide)

theorem payBank_spec :
    ∀ (bank toBank : List Card) (rem : Int) (log : List String) (n : String),
      ∃ k : Nat,
        (payBank bank toBank rem log n).1 = bank.drop k ∧
        (payBank bank toBank rem log n).2.1 = toBank ++ bank.take k ∧
        (payBank bank toBank rem log n).2.2.1 = rem - (valC (bank.take k) : Int) ∧
        ((payBank bank toBank rem log n).2.2.1 ≤ 0 ∨
          (payBank bank toBank rem log n).1 = []) ∧
        (∀ j : Nat, j < k → 0 < rem - (valC (bank.take j) : Int))
  | [], tb, rem, log, n => by
    refine ⟨0, rfl, by simp [payBank], by simp [payBank, valC], Or.inr rfl,
      fun j hj => absurd hj (Nat.not_lt_zero j)⟩
  | c :: rest, tb, rem, log, n => by
    rw [payBank]
    by_cases h : 0 < rem
    · rw [if_pos h]
      dsimp only
      obtain ⟨k, h1, h2, h3, h4, h5⟩ := payBank_spec rest (tb ++ [c])
        (rem - (c.value : Int))
        (if rem - (c.value : Int) < 0 then
            "Note: No change is given in MonoDeal!" :: paidMsg n c :: log
          else paidMsg n c :: log) n
      refine ⟨k + 1, ?_, ?_, ?_, ?_, ?_⟩
      · rw [h1, List.drop_succ_cons]
      · rw [h2, List.take_succ_cons, List.append_assoc]
        rfl
      · rw [h3, List.take_succ_cons, valC_cons]
        push_cast
        omega
      · rcases h4 with h4 | h4
        · exact Or.inl h4
        · refine Or.inr ?_
          rw [h1] at h4
          rw [h1, h4]
      · intro j hj
        cases j with
        | zero =>
          rw [List.take_zero]
          have h0 : valC ([] : List Card) = 0 := rfl
          rw [h0]
          push_cast
          omega
        | succ j1 =>
          have hj1 := h5 j1 (by omega)
          rw [List.take_succ_cons, valC_cons]
          push_cast
          push_cast at hj1
          omega
    · rw [if_neg h]
      refine ⟨0, rfl, by simp, by simp [valC], Or.inl (show rem ≤ 0 by omega),
        fun j hj => absurd hj (Nat.not_lt_zero j)⟩

theorem popFirstNonempty_val {ps : List PropertySet} {c : Card}
    {ps' : List PropertySet} (h : popFirstNonempty ps = some (c, ps')) :
    propsVal ps = c.value + propsVal ps' := by
  rw [propsVal, propsVal, popFirstNonempty_cards h, mval_add, mval_singleton]

theorem payPropsAux_rem :
    ∀ (fuel : Nat) (fp tp : List PropertySet) (rem : Int) (log : List String)
      (n : String),
      ((payPropsAux fuel fp tp rem log n).2.2.1 : Int) +
          (propsVal fp : Int) =
        rem + (propsVal (payPropsAux fuel fp tp rem log n).1 : Int)
  | 0, fp, tp, rem, log, n => rfl
  | fuel + 1, fp, tp, rem, log, n => by
    rw [payPropsAux]
    by_cases hg : 0 < rem ∧ fp ≠ []
    · rw [if_pos hg]
      cases hpop : popFirstNonempty fp with
      | none => rfl
      | some r =>
        obtain ⟨c, fp'⟩ := r
        dsimp only
        have ih := payPropsAux_rem fuel fp' (addToColorSet tp (c.color.getD .ANY) c)
          (rem - (c.value : Int)) (surrenderMsg n c :: log) n
        have hv := popFirstNonempty_val hpop
        omega
    · rw [if_neg hg]

theorem payPropsAux_post :
    ∀ (fuel : Nat) (fp tp : List PropertySet) (rem : Int) (log : List String)
      (n : String), propTotal fp ≤ fuel →
      (payPropsAux fuel fp tp rem log n).2.2.1 ≤ 0 ∨
        popFirstNonempty (payPropsAux fuel fp tp rem log n).1 = none
  | 0, fp, tp, rem, log, n, h =>
    Or.inr (show popFirstNonempty fp = none from propTotal_zero_pop (by omega))
  | fuel + 1, fp, tp, rem, log, n, h => by
    rw [payPropsAux]
    by_cases hg : 0 < rem ∧ fp ≠ []
    · rw [if_pos hg]
      cases hpop : popFirstNonempty fp with
      | none => exact Or.inr hpop
      | some r =>
        obtain ⟨c, fp'⟩ := r
        dsimp only
        have : propTotal fp' ≤ fuel := by
          have := popFirstNonempty_propTotal hpop
          omega
        exact payPropsAux_post fuel fp' _ _ _ n this
    · rw [if_neg hg]
      by_cases hrem : 0 < rem
      · have hfp : fp = [] := by
          by_contra hne
          exact hg ⟨hrem, hne⟩
        exact Or.inr (by rw [hfp]; rfl)
      · exact Or.inl (show rem ≤ 0 by omega)

theorem payProps_val (fp tp : List PropertySet) (rem : Int) (log : List String)
    (n : String) :
    propsVal (payProps fp tp rem log n).1 + propsVal (payProps fp tp rem log n).2.1 =
      propsVal fp + propsVal tp := by
  have h := payProps_cards fp tp rem log n
  have := congrArg mval h
  rwa [mval_add, mval_add] at this

theorem sortBank_val (bank : List Card) : valC (sortBank bank) = valC bank := by
  rw [← mval_coe, ← mval_coe, sortBank_cards]

theorem payProps_rem (fp tp : List PropertySet) (rem : Int) (log : List String)
    (n : String) :
    ((payProps fp tp rem log n).2.2.1 : Int) + (propsVal fp : Int) =
      rem + (propsVal (payProps fp tp rem log n).1 : Int) :=
  payPropsAux_rem (propTotal fp) fp tp rem log n

theorem payProps_post (fp tp : List PropertySet) (rem : Int) (log : List String)
    (n : String) :
    (payProps fp tp rem log n).2.2.1 ≤ 0 ∨
      popFirstNonempty (payProps fp tp rem log n).1 = none :=
  payPropsAux_post (propTotal fp) fp tp rem log n (le_refl _)

/-- C4: settlement behaviour of processPayment.  Bank cards transfer as a
prefix of the ascending-sorted bank, whole cards only, the loop running
until the remaining debt is non-positive or the bank is empty: after the k
transferred cards the debt is non-positive or the debtor bank is exhausted,
and each of the k cards was taken while the debt was still positive;
container lengths are naturals and hence never negative; and the creditor
receives value at least min(amount, debtor bank value + debtor property
value). -/
theorem processPayment_settlement_props (f t : Player) (amount : Int)
    (log : List String) :
    (∃ k : Nat,
        (processPayment f t amount log).2.1.bank = t.bank ++ (sortBank f.bank).take k ∧
        (processPayment f t amount log).1.bank = (sortBank f.bank).drop k ∧
        (amount - (valC ((sortBank f.bank).take k) : Int) ≤ 0 ∨
          (processPayment f t amount log).1.bank = []) ∧
        (∀ j : Nat, j < k →
          0 < amount - (valC ((sortBank f.bank).take j) : Int))) ∧
    (0 : Int) ≤ ((processPayment f t amount log).1.bank.length : Int) ∧
    (0 : Int) ≤ ((processPayment f t amount log).1.hand.length : Int) ∧
    (0 : Int) ≤ ((processPayment f t amount log).1.properties.length : Int) ∧
    (processPayment f t amount log).1.hand = f.hand ∧
    (processPayment f t amount log).2.1.hand = t.hand ∧
    (assetVal t : Int) + min amount (assetVal f) ≤
      (assetVal (processPayment f t amount log).2.1 : Int) := by
  obtain ⟨k, hb1, hb2, hb3, hb4, hb5⟩ :=
    payBank_spec (sortBank f.bank) t.bank amount log f.name
  refine ⟨⟨k, hb2, hb1, ?_, hb5⟩, by positivity, by positivity, by positivity,
    rfl, rfl, ?_⟩
  · rcases hb4 with h4 | h4
    · rw [hb3] at h4
      exact Or.inl h4
    · exact Or.inr h4
  show (assetVal t : Int) + min amount (assetVal f) ≤
    ((valC (payBank (sortBank f.bank) t.bank amount log f.name).2.1 : Nat) : Int) +
      (propsVal (payProps f.properties t.properties
        (payBank (sortBank f.bank) t.bank amount log f.name).2.2.1
        (payBank (sortBank f.bank) t.bank amount log f.name).2.2.2 f.name).2.1 : Int)
  have hrem := payProps_rem f.properties t.properties
    (payBank (sortBank f.bank) t.bank amount log f.name).2.2.1
    (payBank (sortBank f.bank) t.bank amount log f.name).2.2.2 f.name
  have hpost := payProps_post f.properties t.properties
    (payBank (sortBank f.bank) t.bank amount log f.name).2.2.1
    (payBank (sortBank f.bank) t.bank amount log f.name).2.2.2 f.name
  have hval := payProps_val f.properties t.properties
    (payBank (sortBank f.bank) t.bank amount log f.name).2.2.1
    (payBank (sortBank f.bank) t.bank amount log f.name).2.2.2 f.name
  have htb : valC (payBank (sortBank f.bank) t.bank amount log f.name).2.1 =
      valC t.bank + valC ((sortBank f.bank).take k) := by
    rw [hb2, ← mval_coe, coe_append, mval_add, mval_coe, mval_coe]
  rw [assetVal, assetVal, htb]
  push_cast
  push_cast at hrem hb3
  rcases hpost with hpost | hpost
  · -- debt satisfied inside the loops: received value covers the full amount
    rcases min_cases amount ((valC f.bank : Int) + (propsVal f.properties : Int))
      with ⟨he, hle⟩ | ⟨he, hle⟩ <;> rw [he] <;> omega
  · -- both containers exhausted: the debtor keeps nothing of value
    have hP1 : propsVal (payProps f.properties t.properties
        (payBank (sortBank f.bank) t.bank amount log f.name).2.2.1
        (payBank (sortBank f.bank) t.bank amount log f.name).2.2.2 f.name).1 = 0 := by
      rw [propsVal, popFirstNonempty_none hpost]
      rfl
    by_cases hremB : (payBank (sortBank f.bank) t.bank amount log f.name).2.2.1 ≤ 0
    · rcases min_cases amount ((valC f.bank : Int) + (propsVal f.properties : Int))
        with ⟨he, hle⟩ | ⟨he, hle⟩ <;> rw [he] <;> omega
    · have hBempty : (payBank (sortBank f.bank) t.bank amount log f.name).1 = [] := by
        rcases hb4 with h4 | h4
        · exact absurd h4 hremB
        · exact h4
      have htake : (sortBank f.bank).take k = sortBank f.bank := by
        rw [hb1] at hBempty
        have hlen : (sortBank f.bank).length ≤ k := by
          have := List.drop_eq_nil_iff.mp hBempty
          omega
        exact List.take_of_length_le hlen
      have hsv := sortBank_val f.bank
      rw [htake] at hb3 ⊢
      rcases min_cases amount ((valC f.bank : Int) + (propsVal f.properties : Int))
        with ⟨he, hle⟩ | ⟨he, hle⟩ <;> rw [he] <;> omega

theorem checkWin_actions (s : GameState) :
    (checkWinCondition s).actionsRemaining = s.actionsRemaining := by
  rw [checkWinCondition]
  split <;> rfl

/-- C2: when resolvePendingAction receives the final non-counter response
(useCounter false, or the responder holds no Just Say No), the triggering
card is discarded, the pending action is cleared and exactly one action is
consumed in both outcomes; the state is otherwise untouched (blocked) iff
jsnStack is odd, and the action effect runs followed by the win check iff
jsnStack is even. -/
theorem resolve_final_parity (s : GameState) (pa : PendingAction) (b : Bool)
    (hpa : s.pendingAction = some pa)
    (hfinal : b = false ∨
      extractFirst (fun c => c.name == "Just Say No")
        (s.getP (jsnResponder pa)).hand = none) :
    (resolvePendingAction s b).pendingAction = none ∧
    (resolvePendingAction s b).discardPile = s.discardPile ++ [pa.card] ∧
    (resolvePendingAction s b).actionsRemaining = s.actionsRemaining - 1 ∧
    (pa.jsnStack % 2 = 1 →
      (resolvePendingAction s b).players = s.players ∧
      (resolvePendingAction s b).deck = s.deck ∧
      (resolvePendingAction s b).winner = s.winner ∧
      (resolvePendingAction s b).phase = s.phase) ∧
    (pa.jsnStack % 2 = 0 →
      resolvePendingAction s b =
        checkWinCondition
          { applyEffect s pa with
            discardPile := (applyEffect s pa).discardPile ++ [pa.card],
            actionsRemaining := (applyEffect s pa).actionsRemaining - 1,
            pendingAction := none }) := by
  have hjsn : (if b then extractFirst (fun c => c.name == "Just Say No")
      (s.getP (jsnResponder pa)).hand else none) = none := by
    rcases hfinal with rfl | hf
    · rfl
    · by_cases hb : b
      · rw [if_pos hb]; exact hf
      · rw [if_neg hb]
  rw [resolvePendingAction, hpa]
  dsimp only
  rw [hjsn]
  by_cases hodd : pa.jsnStack % 2 = 1
  · rw [if_pos hodd]
    exact ⟨rfl, rfl, rfl, fun _ => ⟨rfl, rfl, rfl, rfl⟩,
      fun heven => absurd heven (by omega)⟩
  · rw [if_neg hodd]
    obtain ⟨hpair, hdeck, hdisc, hpend, hact, _, _, _⟩ := applyEffect_keeps s pa
    refine ⟨?_, ?_, ?_, fun h1 => absurd h1 hodd, fun _ => rfl⟩
    · rw [checkWin_pending]
    · rw [checkWin_discard]
      show (applyEffect s pa).discardPile ++ [pa.card] = _
      rw [hdisc]
    · rw [checkWin_actions]
      show (applyEffect s pa).actionsRemaining - 1 = _
      rw [hact]

def pW2a : Player := ⟨"p1", "A", [], [], [], false⟩
def pW2b : Player := ⟨"p2", "B", [], [], [], false⟩
def paW2 : PendingAction := ⟨.DEBT_COLLECTOR, dcCard, 0, none, none, none, 0⟩
def sW2 : GameState :=
  ⟨(pW2a, pW2b), 0, [], [], .PLAY_PHASE, 3, [], none, none, some paW2⟩

/-- Witness for resolve_final_parity at a concrete state. -/
theorem resolve_final_parity_witness :
    (resolvePendingAction sW2 false).pendingAction = none ∧
    (resolvePendingAction sW2 false).discardPile = sW2.discardPile ++ [paW2.card] ∧
    (resolvePendingAction sW2 false).actionsRemaining = sW2.actionsRemaining - 1 ∧
    (paW2.jsnStack % 2 = 1 →
      (resolvePendingAction sW2 false).players = sW2.players ∧
      (resolvePendingAction sW2 false).deck = sW2.deck ∧
      (resolvePendingAction sW2 false).winner = sW2.winner ∧
      (resolvePendingAction sW2 false).phase = sW2.phase) ∧
    (paW2.jsnStack % 2 = 0 →
      resolvePendingAction sW2 false =
        checkWinCondition
          { applyEffect sW2 paW2 with
            discardPile := (applyEffect sW2 paW2).discardPile ++ [paW2.card],
            actionsRemaining := (applyEffect sW2 paW2).actionsRemaining - 1,
            pendingAction := none }) :=
  resolve_final_parity sW2 paW2 false rfl (Or.inl rfl)

/-- Reading one side of a player pair, as the source reads players[i]. -/
def pairGet (pp : Player × Player) (i : Fin 2) : Player :=
  if i = 0 then pp.1 else pp.2

theorem getP_eq_pairGet (s : GameState) (i : Fin 2) : s.getP i = pairGet s.players i := rfl

theorem pairGet_mk_self (i : Fin 2) (p q : Player) : pairGet (mkPlayers i p q) i = p := by
  fin_cases i <;> rfl

theorem pairGet_mk_opp (i : Fin 2) (p q : Player) :
    pairGet (mkPlayers i p q) (oppIdx i) = q := by
  fin_cases i <;> rfl

theorem resolve_executes (s : GameState) (pa : PendingAction) (b : Bool)
    (hpa : s.pendingAction = some pa)
    (hfinal : b = false ∨
      extractFirst (fun c => c.name == "Just Say No")
        (s.getP (jsnResponder pa)).hand = none)
    (heven : pa.jsnStack % 2 = 0) :
    resolvePendingAction s b =
      checkWinCondition
        { applyEffect s pa with
          discardPile := (applyEffect s pa).discardPile ++ [pa.card],
          actionsRemaining := (applyEffect s pa).actionsRemaining - 1,
          pendingAction := none } := by
  have hjsn : (if b then extractFirst (fun c => c.name == "Just Say No")
      (s.getP (jsnResponder pa)).hand else none) = none := by
    rcases hfinal with rfl | hf
    · rfl
    · by_cases hb : b
      · rw [if_pos hb]; exact hf
      · rw [if_neg hb]
  rw [resolvePendingAction, hpa]
  dsimp only
  rw [hjsn]
  rw [if_neg (by omega)]

theorem applyEffect_sly_invalid (s : GameState) (pa : PendingAction) (ti : Nat)
    (htype : pa.type = .SLY_DEAL) (hti : pa.targetSetIndex = some ti)
    (hinv : ∀ ts, (s.getP (oppIdx pa.attackerIndex)).properties[ti]? = some ts →
      ts.isComplete = true ∨ ts.cards = []) :
    (applyEffect s pa).players = s.players := by
  rw [applyEffect, htype]
  dsimp only
  rw [hti]
  dsimp only
  cases hts : (s.getP (oppIdx pa.attackerIndex)).properties[ti]? with
  | none => rfl
  | some ts =>
    dsimp only
    rw [if_neg]
    rcases hinv ts hts with h | h
    · intro hc; rw [h] at hc; exact absurd hc.1 (by simp)
    · intro hc; exact hc.2 h

theorem applyEffect_sly_valid (s : GameState) (pa : PendingAction) (ti : Nat)
    (ts : PropertySet) (stolen : Card) (oppProps1 : List PropertySet)
    (htype : pa.type = .SLY_DEAL) (hti : pa.targetSetIndex = some ti)
    (hts : (s.getP (oppIdx pa.attackerIndex)).properties[ti]? = some ts)
    (hc1 : ts.isComplete = false) (hc2 : ts.cards ≠ [])
    (hpop : popSetAt (s.getP (oppIdx pa.attackerIndex)).properties ti =
      some (stolen, oppProps1)) :
    (applyEffect s pa).players = mkPlayers pa.attackerIndex
      { s.getP pa.attackerIndex with
        properties := slyAssign (s.getP pa.attackerIndex).properties stolen }
      { s.getP (oppIdx pa.attackerIndex) with properties := oppProps1 } := by
  rw [applyEffect, htype]
  dsimp only
  rw [hti]
  dsimp only
  rw [hts]
  dsimp only
  rw [if_pos ⟨hc1, hc2⟩, hpop]

/-- C8 (amended): an unblocked SLY_DEAL resolution always discards the
triggering card, clears the pending action and consumes one action; if the
targeted set is complete, empty or absent, the players' assets are untouched
(failure is only logged); if the target is incomplete and non-empty, its most
recently added card is popped (the emptied set removed, a surviving set
marked incomplete) and the stolen card joins the attacker via `slyAssign`:
first incomplete set of the primary color, then incomplete set of the
secondary color, else a brand-new set — never an existing complete set. -/
theorem sly_deal_resolution (s : GameState) (pa : PendingAction) (b : Bool)
    (ti : Nat) (hpa : s.pendingAction = some pa) (htype : pa.type = .SLY_DEAL)
    (hti : pa.targetSetIndex = some ti) (heven : pa.jsnStack % 2 = 0)
    (hfinal : b = false ∨
      extractFirst (fun c => c.name == "Just Say No")
        (s.getP (jsnResponder pa)).hand = none) :
    (resolvePendingAction s b).discardPile = s.discardPile ++ [pa.card] ∧
    (resolvePendingAction s b).actionsRemaining = s.actionsRemaining - 1 ∧
    (resolvePendingAction s b).pendingAction = none ∧
    (∀ ts, (s.getP (oppIdx pa.attackerIndex)).properties[ti]? = some ts →
      ts.isComplete = true ∨ ts.cards = [] →
      (resolvePendingAction s b).players = s.players) ∧
    ((s.getP (oppIdx pa.attackerIndex)).properties[ti]? = none →
      (resolvePendingAction s b).players = s.players) ∧
    (∀ ts stolen oppProps1,
      (s.getP (oppIdx pa.attackerIndex)).properties[ti]? = some ts →
      ts.isComplete = false → ts.cards ≠ [] →
      popSetAt (s.getP (oppIdx pa.attackerIndex)).properties ti =
        some (stolen, oppProps1) →
      ((resolvePendingAction s b).getP pa.attackerIndex).properties =
        slyAssign (s.getP pa.attackerIndex).properties stolen ∧
      ((resolvePendingAction s b).getP (oppIdx pa.attackerIndex)).properties =
        oppProps1) := by
  have hres := resolve_executes s pa b hpa hfinal heven
  obtain ⟨hpair, hdeck, hdisc, hpend, hact, _, _, _⟩ := applyEffect_keeps s pa
  refine ⟨?_, ?_, ?_, ?_, ?_, ?_⟩
  · rw [hres, checkWin_discard]
    show (applyEffect s pa).discardPile ++ [pa.card] = _
    rw [hdisc]
  · rw [hres, checkWin_actions]
    show (applyEffect s pa).actionsRemaining - 1 = _
    rw [hact]
  · rw [hres, checkWin_pending]
  · intro ts hts hbad
    rw [hres, checkWin_players]
    show (applyEffect s pa).players = s.players
    exact applyEffect_sly_invalid s pa ti htype hti
      (fun ts' hts' => by rw [hts] at hts'; cases hts'; exact hbad)
  · intro hnone
    rw [hres, checkWin_players]
    show (applyEffect s pa).players = s.players
    refine applyEffect_sly_invalid s pa ti htype hti (fun ts' hts' => ?_)
    rw [hnone] at hts'
    cases hts'
  · intro ts stolen oppProps1 hts hc1 hc2 hpop
    have hply := applyEffect_sly_valid s pa ti ts stolen oppProps1 htype hti hts hc1 hc2 hpop
    constructor
    · rw [hres, getP_eq_pairGet, checkWin_players]
      show (pairGet (applyEffect s pa).players pa.attackerIndex).properties = _
      rw [hply, pairGet_mk_self]
    · rw [hres, getP_eq_pairGet, checkWin_players]
      show (pairGet (applyEffect s pa).players (oppIdx pa.attackerIndex)).properties = _
      rw [hply, pairGet_mk_opp]

def angelC (j : Nat) : Card :=
  mkCard j "The Angel Islington" .PROPERTY 1 (some .LIGHT_BLUE) none none
def lbWildC : Card :=
  mkCard 0 "Light Blue/Brown Wild" .WILD 1 (some .LIGHT_BLUE) (some .BROWN)
    (some "Use as Light Blue or Brown property.")
def slyC : Card :=
  mkCard 0 "Sly Deal" .ACTION 3 none none (some "Steal a single property from any player.")

def paC8 : PendingAction := ⟨.SLY_DEAL, slyC, 0, none, some 0, none, 0⟩
def pC8a : Player :=
  ⟨"p1", "A", [], [], [⟨.LIGHT_BLUE, [angelC 0, angelC 1, angelC 2], true⟩], false⟩
def pC8b : Player := ⟨"p2", "B", [], [], [⟨.LIGHT_BLUE, [lbWildC], false⟩], false⟩
def sC8 : GameState :=
  ⟨(pC8a, pC8b), 0, [], [], .PLAY_PHASE, 3, [], none, none, some paC8⟩

/-- Witness for sly_deal_resolution at a concrete state. -/
theorem sly_deal_resolution_witness :
    (resolvePendingAction sC8 false).discardPile = sC8.discardPile ++ [paC8.card] ∧
    (resolvePendingAction sC8 false).actionsRemaining = sC8.actionsRemaining - 1 ∧
    (resolvePendingAction sC8 false).pendingAction = none ∧
    (∀ ts, (sC8.getP (oppIdx paC8.attackerIndex)).properties[(0 : Nat)]? = some ts →
      ts.isComplete = true ∨ ts.cards = [] →
      (resolvePendingAction sC8 false).players = sC8.players) ∧
    ((sC8.getP (oppIdx paC8.attackerIndex)).properties[(0 : Nat)]? = none →
      (resolvePendingAction sC8 false).players = sC8.players) ∧
    (∀ ts stolen oppProps1,
      (sC8.getP (oppIdx paC8.attackerIndex)).properties[(0 : Nat)]? = some ts →
      ts.isComplete = false → ts.cards ≠ [] →
      popSetAt (sC8.getP (oppIdx paC8.attackerIndex)).properties 0 =
        some (stolen, oppProps1) →
      ((resolvePendingAction sC8 false).getP paC8.attackerIndex).properties =
        slyAssign (sC8.getP paC8.attackerIndex).properties stolen ∧
      ((resolvePendingAction sC8 false).getP (oppIdx paC8.attackerIndex)).properties =
        oppProps1) :=
  sly_deal_resolution sC8 paC8 false 0 rfl rfl rfl (by decide) (Or.inl rfl)

/-- C8 counterexample: the claim routes the stolen card through the 4.1
color-resolution rule (`placeCard`), whose third step falls back to an
existing set of the primary color even when complete.  The Sly Deal code has
no such fallback: with the attacker holding a complete LIGHT_BLUE set and
stealing a LIGHT_BLUE wild, the code opens a second LIGHT_BLUE set while the
4.1 rule would push the card into the complete set. -/
theorem sly_placement_differs :
    sC8.pendingAction = some paC8 ∧
    paC8.type = .SLY_DEAL ∧
    paC8.jsnStack % 2 = 0 ∧
    paC8.targetSetIndex = some 0 ∧
    (sC8.getP (oppIdx paC8.attackerIndex)).properties[(0 : Nat)]? =
      some ⟨.LIGHT_BLUE, [lbWildC], false⟩ ∧
    popSetAt (sC8.getP (oppIdx paC8.attackerIndex)).properties 0 =
      some (lbWildC, []) ∧
    ((resolvePendingAction sC8 false).getP paC8.attackerIndex).properties ≠
      placeCard (sC8.getP paC8.attackerIndex).properties lbWildC := by
  decide

/-- C5 (amended): each iteration of settlement step 2 transfers the popped
card into the creditor's collection through `addToColorSet` — the first
existing set whose color equals the card's primary color is used even if it
is complete, with no secondary-color fallback, and otherwise a new set is
appended.  This is the simple PROPERTY-move rule, not the 4.1 reassignment
rule of the claim (refuted by settlement_placement_differs). -/
theorem payProps_simple_placement (fp tp : List PropertySet) (rem : Int)
    (log : List String) (n : String) (c : Card) (fp' : List PropertySet)
    (hrem : 0 < rem) (hfp : fp ≠ [])
    (hpop : popFirstNonempty fp = some (c, fp')) :
    payProps fp tp rem log n =
      payProps fp' (addToColorSet tp (c.color.getD .ANY) c)
        (rem - (c.value : Int)) (surrenderMsg n c :: log) n := by
  rw [payProps, popFirstNonempty_propTotal hpop, payPropsAux, if_pos ⟨hrem, hfp⟩, hpop]
  rfl

def okC (j : Nat) : Card := mkCard j "Old Kent Road" .PROPERTY 1 (some .BROWN) none none

/-- Witness for payProps_simple_placement at concrete inputs. -/
theorem payProps_simple_placement_witness :
    payProps [PropertySet.mk .BROWN [okC 0] false] [] 5 [] "d" =
      payProps [] (addToColorSet [] ((okC 0).color.getD .ANY) (okC 0))
        (5 - ((okC 0).value : Int)) (surrenderMsg "d" (okC 0) :: []) "d" :=
  payProps_simple_placement [PropertySet.mk .BROWN [okC 0] false] [] 5 [] "d"
    (okC 0) [] (by decide) (by decide) (by decide)

def pC5d : Player := ⟨"p2", "B", [], [], [⟨.LIGHT_BLUE, [lbWildC], false⟩], false⟩
def pC5c : Player := ⟨"p1", "A", [], [], [⟨.BROWN, [okC 0], false⟩], false⟩

/-- C5 counterexample: liquidating a dual-color wild (primary LIGHT_BLUE,
secondary BROWN) to a creditor who has an incomplete BROWN set and no
LIGHT_BLUE set.  The 4.1 rule of the claim would place it into the BROWN set
via the secondary-color step; the code appends a fresh LIGHT_BLUE set. -/
theorem settlement_placement_differs :
    pC5d.bank = [] ∧
    popFirstNonempty pC5d.properties = some (lbWildC, []) ∧
    (processPayment pC5d pC5c 5 []).2.1.properties ≠
      placeCard pC5c.properties lbWildC := by
  decide

theorem extractFirst_none {q : Card → Bool} :
    ∀ {l : List Card}, (∀ c ∈ l, q c = false) → extractFirst q l = none
  | [], _ => rfl
  | x :: xs, h => by
    rw [extractFirst, if_neg (by simp [h x (List.mem_cons_self x xs)]),
      extractFirst_none fun c hc => h c (List.mem_cons_of_mem x hc)]
    rfl

/-- C6 (amended): executeMove is a silent no-op (returning the state
unchanged, as a total function with no error channel) whenever the phase is
not PLAY_PHASE, no actions remain, the winner field is truthy (non-null and
non-empty — the source tests `prev.winner` by JavaScript truthiness, not
against null), an action is pending, or the card id is absent from the
acting player's hand. -/
theorem executeMove_noop_guard (a : AppState) (mt : MoveType) (cid : String)
    (r1 r2 : Nat)
    (h : a.game.phase ≠ .PLAY_PHASE ∨ a.game.actionsRemaining ≤ 0 ∨
      isTruthy a.game.winner = true ∨ a.game.pendingAction ≠ none ∨
      (∀ c ∈ (a.game.getP a.game.activePlayerIndex).hand, c.id ≠ cid)) :
    executeMove a mt cid r1 r2 = a := by
  rw [executeMove]
  by_cases hg : a.game.actionsRemaining ≤ 0 ∨ a.game.phase ≠ .PLAY_PHASE ∨
      isTruthy a.game.winner = true ∨ a.game.pendingAction ≠ none
  · rw [if_pos hg]
  · rw [if_neg hg]
    have habs : ∀ c ∈ (a.game.getP a.game.activePlayerIndex).hand, c.id ≠ cid := by
      rcases h with h | h | h | h | h
      · exact (hg (Or.inr (Or.inl h))).elim
      · exact (hg (Or.inl h)).elim
      · exact (hg (Or.inr (Or.inr (Or.inl h)))).elim
      · exact (hg (Or.inr (Or.inr (Or.inr h)))).elim
      · exact h
    have hx : extractFirst (fun c => c.id == cid)
        (a.game.getP a.game.activePlayerIndex).hand = none :=
      extractFirst_none fun c hc => by simp [habs c hc]
    dsimp only
    rw [hx]

def m1C : Card := mkCard 0 "1M" .MONEY 1 none none none
def pC6a : Player := ⟨"p1", "A", [m1C], [], [], false⟩
def pC6b : Player := ⟨"p2", "B", [], [], [], false⟩
def aC6 : AppState :=
  ⟨⟨(pC6a, pC6b), 0, [], [], .PLAY_PHASE, 3, [], some "", none, none⟩, none, none, none⟩

/-- Witness for executeMove_noop_guard at a concrete state (no actions
remaining). -/
theorem executeMove_noop_guard_witness :
    executeMove ⟨⟨(pC6a, pC6b), 0, [], [], .PLAY_PHASE, 0, [], none, none, none⟩,
      none, none, none⟩ .BANK "1M-0" 0 0 =
    ⟨⟨(pC6a, pC6b), 0, [], [], .PLAY_PHASE, 0, [], none, none, none⟩,
      none, none, none⟩ :=
  executeMove_noop_guard _ .BANK "1M-0" 0 0 (Or.inr (Or.inl (by decide)))

/-- C6 counterexample: the claim demands a no-op whenever `winner != null`,
but the source checks `prev.winner` by truthiness, so with `winner` equal to
the empty string a BANK move still goes through and changes the state. -/
theorem noop_guard_empty_winner_fails :
    aC6.game.winner ≠ none ∧
    executeMove aC6 .BANK "1M-0" 0 0 ≠ aC6 := by
  decide

/-- C9 (amended): the transition function is deterministic once the
`Math.random()` draws are fixed (they are explicit arguments here), and is
fully independent of them whenever the acting player is not an AI — the
draws are consulted only by the AI auto-targeting branches of Force Deal and
Sly Deal.  executeMove_nondeterministic_ai refutes unconditional
determinism. -/
theorem executeMove_rng_irrelevant_human (a : AppState) (mt : MoveType)
    (cid : String) (r1 r2 r1' r2' : Nat)
    (hAI : (a.game.getP a.game.activePlayerIndex).isAI = false) :
    executeMove a mt cid r1 r2 = executeMove a mt cid r1' r2' := by
  have hai2 : ¬ ((a.game.getP a.game.activePlayerIndex).isAI = true) := by
    simp [hAI]
  rw [executeMove, executeMove]
  by_cases hg : a.game.actionsRemaining ≤ 0 ∨ a.game.phase ≠ .PLAY_PHASE ∨
      isTruthy a.game.winner = true ∨ a.game.pendingAction ≠ none
  · rw [if_pos hg, if_pos hg]
  · rw [if_neg hg, if_neg hg]
    dsimp only
    cases hx : extractFirst (fun c => c.id == cid)
        (a.game.getP a.game.activePlayerIndex).hand with
    | none => rfl
    | some r =>
      obtain ⟨card, rest⟩ := r
      cases mt with
      | BANK => rfl
      | PROPERTY => rfl
      | ACTION_PLAY =>
        dsimp only
        by_cases hrent : card.type = .RENT
        · rw [if_pos hrent, if_pos hrent]
        · rw [if_neg hrent, if_neg hrent]
          by_cases hfd : card.name = "Force Deal"
          · rw [if_pos hfd, if_pos hfd, if_neg hai2, if_neg hai2]
          · rw [if_neg hfd, if_neg hfd]
            by_cases hsd : card.name = "Sly Deal"
            · rw [if_pos hsd, if_pos hsd, if_neg hai2, if_neg hai2]
            · rw [if_neg hsd, if_neg hsd]

def whC (j : Nat) : Card := mkCard j "Whitehall" .PROPERTY 2 (some .PINK) none none
def pC9a : Player :=
  ⟨"p1", "A", [], [], [⟨.BROWN, [okC 0], false⟩, ⟨.PINK, [whC 0], false⟩], false⟩
def pC9b : Player := ⟨"p2", "Gemini AI", [slyC], [], [], true⟩
def aC9 : AppState :=
  ⟨⟨(pC9a, pC9b), 1, [], [], .PLAY_PHASE, 3, [], none, none, none⟩, none, none, none⟩

/-- Witness for executeMove_rng_irrelevant_human at a concrete human state. -/
theorem executeMove_rng_irrelevant_human_witness :
    executeMove ⟨⟨(pC9a, pC9b), 0, [], [], .PLAY_PHASE, 3, [], none, none, none⟩,
        none, none, none⟩ .BANK "x" 0 0 =
      executeMove ⟨⟨(pC9a, pC9b), 0, [], [], .PLAY_PHASE, 3, [], none, none, none⟩,
        none, none, none⟩ .BANK "x" 3 7 :=
  executeMove_rng_irrelevant_human _ .BANK "x" 0 0 3 7 (by decide)

/-- C9 counterexample: executeMove consults Math.random (modelled as the two
extra arguments) when an AI plays Sly Deal with several eligible opponent
sets; two invocations on the same (GameState, Move) input can create pending
actions with different target sets. -/
theorem executeMove_nondeterministic_ai :
    (aC9.game.getP aC9.game.activePlayerIndex).isAI = true ∧
    executeMove aC9 .ACTION_PLAY "Sly Deal-0" 0 0 ≠
      executeMove aC9 .ACTION_PLAY "Sly Deal-0" 0 1 := by
  decide

/-- Soundness of a set's completion flag: a set flagged complete really holds
at least the limit for its color. -/
def SetOK (st : PropertySet) : Prop :=
  st.isComplete = true → SET_LIMITS st.color ≤ st.cards.length

/-- Flag soundness for every set of a list. -/
def PropsOK (ps : List PropertySet) : Prop := ∀ st ∈ ps, SetOK st

/-- Flag soundness for both players. -/
def PlayersOK (pp : Player × Player) : Prop :=
  PropsOK pp.1.properties ∧ PropsOK pp.2.properties

theorem pushToSet_ok (st : PropertySet) (c : Card) : SetOK (pushToSet st c) := by
  intro h
  rw [pushToSet] at h ⊢
  dsimp only at h ⊢
  exact of_decide_eq_true h

theorem propsOK_nil : PropsOK [] := fun st hst => absurd hst (List.not_mem_nil st)

theorem propsOK_cons {st : PropertySet} {ps : List PropertySet} (h1 : SetOK st)
    (h2 : PropsOK ps) : PropsOK (st :: ps) := by
  intro x hx
  rcases List.mem_cons.mp hx with rfl | hx
  · exact h1
  · exact h2 x hx

theorem propsOK_of_cons {st : PropertySet} {ps : List PropertySet}
    (h : PropsOK (st :: ps)) : SetOK st ∧ PropsOK ps :=
  ⟨h st (List.mem_cons_self st ps), fun x hx => h x (List.mem_cons_of_mem st hx)⟩

theorem updateFirst_push_ok {q : PropertySet → Bool} {c : Card} :
    ∀ {ps ps' : List PropertySet}, PropsOK ps →
      updateFirst q (fun st => pushToSet st c) ps = some ps' → PropsOK ps'
  | [], _, _, h => by simp [updateFirst] at h
  | st :: ps, ps', hOK, h => by
    obtain ⟨hst, hps⟩ := propsOK_of_cons hOK
    by_cases hq : q st
    · rw [updateFirst, if_pos hq] at h
      simp only [Option.some.injEq] at h
      subst h
      exact propsOK_cons (pushToSet_ok st c) hps
    · rw [updateFirst, if_neg hq] at h
      cases hx : updateFirst q (fun st => pushToSet st c) ps with
      | none => rw [hx] at h; simp at h
      | some r =>
        rw [hx] at h
        simp only [Option.map_some', Option.some.injEq] at h
        subst h
        exact propsOK_cons hst (updateFirst_push_ok hps hx)

theorem appendNew_ok {ps : List PropertySet} (hOK : PropsOK ps)
    (col : PropertyColor) (c : Card) :
    PropsOK (ps ++ [pushToSet ⟨col, [], false⟩ c]) := by
  intro x hx
  rcases List.mem_append.mp hx with hx | hx
  · exact hOK x hx
  · rcases List.mem_singleton.mp hx with rfl
    exact pushToSet_ok _ c

theorem addToColorSet_ok {ps : List PropertySet} (hOK : PropsOK ps)
    (col : PropertyColor) (c : Card) : PropsOK (addToColorSet ps col c) := by
  rw [addToColorSet]
  split
  next ps' h => exact updateFirst_push_ok hOK h
  next h => exact appendNew_ok hOK col c

theorem placeCard_ok {ps : List PropertySet} (hOK : PropsOK ps) (c : Card) :
    PropsOK (placeCard ps c) := by
  rw [placeCard]
  split
  next ps' h => exact updateFirst_push_ok hOK h
  next h =>
    split
    next ps' h2 =>
      rw [Option.bind_eq_some] at h2
      obtain ⟨sc, hsc, h2⟩ := h2
      exact updateFirst_push_ok hOK h2
    next h2 =>
      split
      next ps' h3 => exact updateFirst_push_ok hOK h3
      next h3 => exact appendNew_ok hOK _ c

theorem slyAssign_ok {ps : List PropertySet} (hOK : PropsOK ps) (c : Card) :
    PropsOK (slyAssign ps c) := by
  rw [slyAssign]
  split
  next ps' h => exact updateFirst_push_ok hOK h
  next h =>
    split
    next ps' h2 =>
      rw [Option.bind_eq_some] at h2
      obtain ⟨sc, hsc, h2⟩ := h2
      exact updateFirst_push_ok hOK h2
    next h2 => exact appendNew_ok hOK _ c

theorem popFirstNonempty_ok :
    ∀ {ps : List PropertySet} {c : Card} {ps' : List PropertySet}, PropsOK ps →
      popFirstNonempty ps = some (c, ps') → PropsOK ps'
  | [], _, _, _, h => by simp [popFirstNonempty] at h
  | st :: ps, c, ps', hOK, h => by
    obtain ⟨hst, hps⟩ := propsOK_of_cons hOK
    rw [popFirstNonempty] at h
    cases hl : st.cards.getLast? with
    | none =>
      rw [hl] at h
      cases hx : popFirstNonempty ps with
      | none => rw [hx] at h; simp at h
      | some r =>
        obtain ⟨rc, rr⟩ := r
        rw [hx] at h
        simp only [Option.map_some', Option.some.injEq, Prod.mk.injEq] at h
        obtain ⟨rfl, rfl⟩ := h
        exact propsOK_cons hst (popFirstNonempty_ok hps hx)
    | some x =>
      rw [hl] at h
      dsimp only at h
      by_cases he : st.cards.dropLast.isEmpty
      · rw [if_pos he] at h
        simp only [Option.some.injEq, Prod.mk.injEq] at h
        obtain ⟨rfl, rfl⟩ := h
        exact hps
      · rw [if_neg he] at h
        simp only [Option.some.injEq, Prod.mk.injEq] at h
        obtain ⟨rfl, rfl⟩ := h
        refine propsOK_cons (fun hcomp => ?_) hps
        simp at hcomp

theorem popSetAt_ok :
    ∀ {ps : List PropertySet} {i : Nat} {c : Card} {ps' : List PropertySet},
      PropsOK ps → popSetAt ps i = some (c, ps') → PropsOK ps'
  | [], _, _, _, _, h => by simp [popSetAt] at h
  | st :: ps, 0, c, ps', hOK, h => by
    obtain ⟨hst, hps⟩ := propsOK_of_cons hOK
    rw [popSetAt] at h
    cases hl : st.cards.getLast? with
    | none => rw [hl] at h; simp at h
    | some x =>
      rw [hl] at h
      dsimp only at h
      by_cases he : st.cards.dropLast.isEmpty
      · rw [if_pos he] at h
        simp only [Option.some.injEq, Prod.mk.injEq] at h
        obtain ⟨rfl, rfl⟩ := h
        exact hps
      · rw [if_neg he] at h
        simp only [Option.some.injEq, Prod.mk.injEq] at h
        obtain ⟨rfl, rfl⟩ := h
        refine propsOK_cons (fun hcomp => ?_) hps
        simp at hcomp
  | st :: ps, i + 1, c, ps', hOK, h => by
    obtain ⟨hst, hps⟩ := propsOK_of_cons hOK
    rw [popSetAt] at h
    cases hx : popSetAt ps i with
    | none => rw [hx] at h; simp at h
    | some r =>
      obtain ⟨rc, rr⟩ := r
      rw [hx] at h
      simp only [Option.map_some', Option.some.injEq, Prod.mk.injEq] at h
      obtain ⟨rfl, rfl⟩ := h
      exact propsOK_cons hst (popSetAt_ok hps hx)

theorem takeFirstComplete_ok :
    ∀ {ps : List PropertySet} {t : PropertySet} {ps' : List PropertySet},
      PropsOK ps → takeFirstComplete ps = some (t, ps') → SetOK t ∧ PropsOK ps'
  | [], _, _, _, h => by simp [takeFirstComplete] at h
  | st :: ps, t, ps', hOK, h => by
    obtain ⟨hst, hps⟩ := propsOK_of_cons hOK
    rw [takeFirstComplete] at h
    by_cases hc : st.isComplete
    · rw [if_pos hc] at h
      simp only [Option.some.injEq, Prod.mk.injEq] at h
      obtain ⟨rfl, rfl⟩ := h
      exact ⟨hst, hps⟩
    · rw [if_neg hc] at h
      cases hx : takeFirstComplete ps with
      | none => rw [hx] at h; simp at h
      | some r =>
        obtain ⟨rt, rr⟩ := r
        rw [hx] at h
        simp only [Option.map_some', Option.some.injEq, Prod.mk.injEq] at h
        obtain ⟨rfl, rfl⟩ := h
        obtain ⟨h1, h2⟩ := takeFirstComplete_ok hps hx
        exact ⟨h1, propsOK_cons hst h2⟩

theorem payPropsAux_ok :
    ∀ (fuel : Nat) {fp tp : List PropertySet} (rem : Int) (log : List String)
      (n : String), PropsOK fp → PropsOK tp →
      PropsOK (payPropsAux fuel fp tp rem log n).1 ∧
        PropsOK (payPropsAux fuel fp tp rem log n).2.1
  | 0, fp, tp, rem, log, n, h1, h2 => ⟨h1, h2⟩
  | fuel + 1, fp, tp, rem, log, n, h1, h2 => by
    rw [payPropsAux]
    by_cases hg : 0 < rem ∧ fp ≠ []
    · rw [if_pos hg]
      cases hpop : popFirstNonempty fp with
      | none => exact ⟨h1, h2⟩
      | some r =>
        obtain ⟨c, fp'⟩ := r
        dsimp only
        exact payPropsAux_ok fuel _ _ n (popFirstNonempty_ok h1 hpop)
          (addToColorSet_ok h2 _ c)
    · rw [if_neg hg]
      exact ⟨h1, h2⟩

theorem processPayment_ok {f t : Player} (amount : Int) (log : List String)
    (h1 : PropsOK f.properties) (h2 : PropsOK t.properties) :
    PropsOK (processPayment f t amount log).1.properties ∧
      PropsOK (processPayment f t amount log).2.1.properties :=
  payPropsAux_ok (propTotal f.properties) _ _ f.name h1 h2

theorem playersOK_mk (i : Fin 2) (p q : Player) :
    PlayersOK (mkPlayers i p q) ↔ PropsOK p.properties ∧ PropsOK q.properties := by
  fin_cases i
  · exact Iff.rfl
  · exact and_comm

theorem playersOK_getP {pp : Player × Player} (h : PlayersOK pp) (i : Fin 2) :
    PropsOK (pairGet pp i).properties := by
  fin_cases i
  · exact h.1
  · exact h.2

theorem propsOK_snoc {ps : List PropertySet} {t : PropertySet}
    (hOK : PropsOK ps) (ht : SetOK t) : PropsOK (ps ++ [t]) := by
  intro x hx
  rcases List.mem_append.mp hx with hx | hx
  · exact hOK x hx
  · rcases List.mem_singleton.mp hx with rfl
    exact ht

theorem playersOK_checkWin {s : GameState} (h : PlayersOK s.players) :
    PlayersOK (checkWinCondition s).players := by
  rw [checkWin_players]
  exact h

theorem applyEffect_ok (s : GameState) (pa : PendingAction)
    (h : PlayersOK s.players) : PlayersOK (applyEffect s pa).players := by
  have hA : PropsOK (s.getP pa.attackerIndex).properties :=
    playersOK_getP h pa.attackerIndex
  have hO : PropsOK (s.getP (oppIdx pa.attackerIndex)).properties :=
    playersOK_getP h (oppIdx pa.attackerIndex)
  rw [applyEffect]
  cases hty : pa.type with
  | FORCE_DEAL =>
    dsimp only
    cases hmi : pa.mySetIndex with
    | none => exact h
    | some mi =>
      cases hti : pa.targetSetIndex with
      | none => exact h
      | some ti =>
        dsimp only
        cases hp1 : popSetAt (s.getP pa.attackerIndex).properties mi with
        | none => exact h
        | some r1 =>
          obtain ⟨myCard, attProps1⟩ := r1
          cases hp2 : popSetAt (s.getP (oppIdx pa.attackerIndex)).properties ti with
          | none => exact h
          | some r2 =>
            obtain ⟨oppCard, oppProps1⟩ := r2
            exact (playersOK_mk _ _ _).mpr
              ⟨placeCard_ok (popSetAt_ok hA hp1) oppCard,
               placeCard_ok (popSetAt_ok hO hp2) myCard⟩
  | SLY_DEAL =>
    dsimp only
    cases hti : pa.targetSetIndex with
    | none => exact h
    | some ti =>
      dsimp only
      cases hts : (s.getP (oppIdx pa.attackerIndex)).properties[ti]? with
      | none => exact h
      | some ts =>
        dsimp only
        by_cases hok : ts.isComplete = false ∧ ts.cards ≠ []
        · rw [if_pos hok]
          cases hp : popSetAt (s.getP (oppIdx pa.attackerIndex)).properties ti with
          | none => exact h
          | some r =>
            obtain ⟨stolen, oppProps1⟩ := r
            exact (playersOK_mk _ _ _).mpr
              ⟨slyAssign_ok hA stolen, popSetAt_ok hO hp⟩
        · rw [if_neg hok]
          exact h
  | DEAL_BREAKER =>
    dsimp only
    cases htk : takeFirstComplete (s.getP (oppIdx pa.attackerIndex)).properties with
    | none => exact h
    | some r =>
      obtain ⟨ts, oppProps1⟩ := r
      obtain ⟨ht, hrest⟩ := takeFirstComplete_ok hO htk
      exact (playersOK_mk _ _ _).mpr ⟨propsOK_snoc hA ht, hrest⟩
  | DEBT_COLLECTOR =>
    dsimp only
    exact (playersOK_mk _ _ _).mpr
      ⟨(processPayment_ok 5 _ hO hA).2, (processPayment_ok 5 _ hO hA).1⟩
  | BIRTHDAY =>
    dsimp only
    exact (playersOK_mk _ _ _).mpr
      ⟨(processPayment_ok 2 _ hO hA).2, (processPayment_ok 2 _ hO hA).1⟩
  | RENT_ALL => exact h

theorem resolve_ok (s : GameState) (b : Bool) (h : PlayersOK s.players) :
    PlayersOK (resolvePendingAction s b).players := by
  rw [resolvePendingAction]
  cases hpa : s.pendingAction with
  | none => exact h
  | some pa =>
    dsimp only
    cases hjsn : (if b then
        extractFirst (fun c => c.name == "Just Say No")
          (s.getP (jsnResponder pa)).hand
      else none) with
    | some r =>
      obtain ⟨jsnCard, rest⟩ := r
      exact (playersOK_mk _ _ _).mpr
        ⟨playersOK_getP h (jsnResponder pa), playersOK_getP h (oppIdx (jsnResponder pa))⟩
    | none =>
      by_cases hodd : pa.jsnStack % 2 = 1
      · rw [if_pos hodd]
        exact h
      · rw [if_neg hodd]
        exact playersOK_checkWin (applyEffect_ok s pa h)

theorem executeMove_ok (a : AppState) (mt : MoveType) (cid : String)
    (r1 r2 : Nat) (h : PlayersOK a.game.players) :
    PlayersOK (executeMove a mt cid r1 r2).game.players := by
  have hP : PropsOK (a.game.getP a.game.activePlayerIndex).properties :=
    playersOK_getP h a.game.activePlayerIndex
  have hO : PropsOK (a.game.getP (oppIdx a.game.activePlayerIndex)).properties :=
    playersOK_getP h (oppIdx a.game.activePlayerIndex)
  rw [executeMove]
  by_cases hg : a.game.actionsRemaining ≤ 0 ∨ a.game.phase ≠ .PLAY_PHASE ∨
      isTruthy a.game.winner = true ∨ a.game.pendingAction ≠ none
  · rw [if_pos hg]
    exact h
  · rw [if_neg hg]
    dsimp only
    cases hx : extractFirst (fun c => c.id == cid)
        (a.game.getP a.game.activePlayerIndex).hand with
    | none => exact h
    | some r =>
      obtain ⟨card, rest⟩ := r
      cases mt with
      | BANK =>
        dsimp only
        exact playersOK_checkWin ((playersOK_mk _ _ _).mpr ⟨hP, hO⟩)
      | PROPERTY =>
        dsimp only
        by_cases ht : card.type ≠ .PROPERTY ∧ card.type ≠ .WILD
        · rw [if_pos ht]
          exact h
        · rw [if_neg ht]
          exact playersOK_checkWin
            ((playersOK_mk _ _ _).mpr ⟨addToColorSet_ok hP _ card, hO⟩)
      | ACTION_PLAY =>
        dsimp only
        by_cases hrent : card.type = .RENT
        · rw [if_pos hrent]
          exact (playersOK_mk _ _ _).mpr ⟨hP, hO⟩
        · rw [if_neg hrent]
          by_cases hfd : card.name = "Force Deal"
          · rw [if_pos hfd]
            by_cases hai : (a.game.getP a.game.activePlayerIndex).isAI = true
            · rw [if_pos hai]
              by_cases htg : eligibleIdxs (a.game.getP a.game.activePlayerIndex).properties ≠ [] ∧
                  eligibleIdxs (a.game.getP (oppIdx a.game.activePlayerIndex)).properties ≠ []
              · rw [if_pos htg]
                exact (playersOK_mk _ _ _).mpr ⟨hP, hO⟩
              · rw [if_neg htg]
                exact (playersOK_mk _ _ _).mpr ⟨hP, hO⟩
            · rw [if_neg hai]
              exact (playersOK_mk _ _ _).mpr ⟨hP, hO⟩
          · rw [if_neg hfd]
            by_cases hsd : card.name = "Sly Deal"
            · rw [if_pos hsd]
              by_cases hai : (a.game.getP a.game.activePlayerIndex).isAI = true
              · rw [if_pos hai]
                by_cases htg : eligibleIdxs
                    (a.game.getP (oppIdx a.game.activePlayerIndex)).properties ≠ []
                · rw [if_pos htg]
                  exact (playersOK_mk _ _ _).mpr ⟨hP, hO⟩
                · rw [if_neg htg]
                  exact (playersOK_mk _ _ _).mpr ⟨hP, hO⟩
              · rw [if_neg hai]
                exact (playersOK_mk _ _ _).mpr ⟨hP, hO⟩
            · rw [if_neg hsd]
              by_cases hdb : card.name = "Deal Breaker" ∨ card.name = "Debt Collector" ∨
                  card.name = "It\x27s My Birthday"
              · rw [if_pos hdb]
                exact playersOK_checkWin ((playersOK_mk _ _ _).mpr ⟨hP, hO⟩)
              · rw [if_neg hdb]
                by_cases hpg : card.name = "Pass Go"
                · rw [if_pos hpg]
                  exact playersOK_checkWin ((playersOK_mk _ _ _).mpr ⟨hP, hO⟩)
                · rw [if_neg hpg]
                  exact playersOK_checkWin ((playersOK_mk _ _ _).mpr ⟨hP, hO⟩)

theorem startTurn_ok (s : GameState) (h : PlayersOK s.players) :
    PlayersOK (startTurn s).players := by
  rw [startTurn]
  by_cases hp : s.phase = .START_TURN
  · rw [if_pos hp]
    exact (playersOK_mk _ _ _).mpr
      ⟨playersOK_getP h s.activePlayerIndex, playersOK_getP h (oppIdx s.activePlayerIndex)⟩
  · rw [if_neg hp]
    exact h

theorem endTurn_ok (a : AppState) (h : PlayersOK a.game.players) :
    PlayersOK (endTurn a).game.players := by
  rw [endTurn]
  split <;> exact h

theorem rent_ok (a : AppState) (iSet : Nat) (h : PlayersOK a.game.players) :
    PlayersOK (handleRentCollection a iSet).game.players := by
  rw [handleRentCollection]
  cases hrc : a.pendingRentCard with
  | none => exact h
  | some rc =>
    dsimp only
    cases hts : (a.game.getP a.game.activePlayerIndex).properties[iSet]? with
    | none => exact h
    | some ts =>
      dsimp only
      refine playersOK_checkWin ((playersOK_mk _ _ _).mpr ⟨?_, ?_⟩)
      · exact (processPayment_ok _ _ (playersOK_getP h (oppIdx a.game.activePlayerIndex))
          (playersOK_getP h a.game.activePlayerIndex)).2
      · exact (processPayment_ok _ _ (playersOK_getP h (oppIdx a.game.activePlayerIndex))
          (playersOK_getP h a.game.activePlayerIndex)).1

theorem chooseMy_ok (a : AppState) (i : Nat) (h : PlayersOK a.game.players) :
    PlayersOK (chooseFDMySet a i).game.players := by
  rw [chooseFDMySet]
  split <;> exact h

theorem initFD_ok (a : AppState) (t : Nat) (h : PlayersOK a.game.players) :
    PlayersOK (initiateForceDeal a t).game.players := by
  rw [initiateForceDeal]
  split <;> exact h

theorem initSD_ok (a : AppState) (t : Nat) (h : PlayersOK a.game.players) :
    PlayersOK (initiateSlyDeal a t).game.players := by
  rw [initiateSlyDeal]
  split <;> exact h

theorem reach_playersOK (d : List Card) (vsAI mp : Bool) (a : AppState)
    (h : Reach d vsAI mp a) : PlayersOK a.game.players := by
  induction h with
  | init => exact ⟨propsOK_nil, propsOK_nil⟩
  | step hr hs ih =>
    cases hs with
    | exec mt cid r1 r2 hR hF hS => exact executeMove_ok _ mt cid r1 r2 ih
    | resolve b => exact resolve_ok _ b ih
    | rent i c h hi => exact rent_ok _ i ih
    | start => exact startTurn_ok _ ih
    | endT hR hF hS hP => exact endTurn_ok _ ih
    | chooseMy i c h => exact chooseMy_ok _ i ih
    | initFD t mi c h hP => exact initFD_ok _ t ih
    | initSD t c h hP => exact initSD_ok _ t ih

/-- C3 (amended): in every reachable state the completion flag is sound in
one direction — a set flagged complete holds at least SET_LIMITS of its
color.  The claimed equality fails in the other direction: removing a card
from an over-filled set always clears the flag even when the set still meets
its limit (see completion_equality_fails). -/
theorem reach_complete_flag_sound (d : List Card) (vsAI mp : Bool)
    (a : AppState) (st : PropertySet) (h : Reach d vsAI mp a)
    (hmem : st ∈ a.game.players.1.properties ∨ st ∈ a.game.players.2.properties)
    (hflag : st.isComplete = true) :
    SET_LIMITS st.color ≤ st.cards.length := by
  have hOK := reach_playersOK d vsAI mp a h
  rcases hmem with hmem | hmem
  · exact hOK.1 st hmem hflag
  · exact hOK.2 st hmem hflag

def plC (j : Nat) : Card := mkCard j "Park Lane" .PROPERTY 4 (some .DARK_BLUE) none none
def dbgWildC : Card :=
  mkCard 0 "Dark Blue/Green Wild" .WILD 4 (some .DARK_BLUE) (some .GREEN)
    (some "Use as Dark Blue or Green property.")
def rblC : Card :=
  mkCard 0 "Rent (Brown/L.Blue)" .RENT 1 (some .BROWN) (some .LIGHT_BLUE)
    (some "Collect rent for Brown or Light Blue sets.")

/-- A shuffle outcome for the C3 trace: p1 is dealt both Park Lanes and the
Dark Blue/Green wild, p2 is dealt the brown/light-blue rent card and an Old
Kent Road. -/
def dC3 : List Card :=
  [plC 0, plC 1, dbgWildC, mkCard 0 "10M" .MONEY 10 none none none,
   mkCard 0 "5M" .MONEY 5 none none none,
   rblC, okC 0, mkCard 1 "5M" .MONEY 5 none none none,
   mkCard 0 "4M" .MONEY 4 none none none,
   mkCard 1 "4M" .MONEY 4 none none none] ++
  initialDeckList.filter fun c =>
    !(c.id == "Park Lane-0" || c.id == "Park Lane-1" ||
      c.id == "Dark Blue/Green Wild-0" || c.id == "10M-0" || c.id == "5M-0" ||
      c.id == "Rent (Brown/L.Blue)-0" || c.id == "Old Kent Road-0" ||
      c.id == "5M-1" || c.id == "4M-0" || c.id == "4M-1")

def cT0 : AppState := initApp dC3 false false
def cT1 : AppState := { cT0 with game := startTurn cT0.game }
def cT2 : AppState := executeMove cT1 .PROPERTY "Park Lane-0" 0 0
def cT3 : AppState := executeMove cT2 .PROPERTY "Park Lane-1" 0 0
def cT4 : AppState := executeMove cT3 .PROPERTY "Dark Blue/Green Wild-0" 0 0
def cT5 : AppState := endTurn cT4
def cT6 : AppState := { cT5 with game := startTurn cT5.game }
def cT7 : AppState := executeMove cT6 .PROPERTY "Old Kent Road-0" 0 0
def cT8 : AppState := executeMove cT7 .ACTION_PLAY "Rent (Brown/L.Blue)-0" 0 0
def cT9 : AppState := handleRentCollection cT8 0

/-- C3 counterexample: a reachable state holding a set with
`isComplete = false` yet `cards.length >= SET_LIMITS[color]`.  Player 1
stacks both Park Lanes plus the Dark Blue/Green wild into one DARK_BLUE set
(3 cards, limit 2, flagged complete); player 2 collects 1M rent, the wild is
surrendered, and the surviving 2-card set is marked incomplete although it
still meets the limit. -/
theorem completion_equality_fails :
    (dC3 : Multiset Card) = (initialDeckList : Multiset Card) ∧
    Reach dC3 false false cT9 ∧
    (cT9.game.players.1.properties.any fun st =>
      !st.isComplete && decide (SET_LIMITS st.color ≤ st.cards.length)) = true := by
  refine ⟨by decide, ?_, by decide⟩
  exact Reach.step (Reach.step (Reach.step (Reach.step (Reach.step (Reach.step
    (Reach.step (Reach.step (Reach.step Reach.init
      (Step.start cT0))
      (Step.exec cT1 .PROPERTY "Park Lane-0" 0 0 rfl rfl rfl))
      (Step.exec cT2 .PROPERTY "Park Lane-1" 0 0 rfl rfl rfl))
      (Step.exec cT3 .PROPERTY "Dark Blue/Green Wild-0" 0 0 rfl rfl rfl))
      (Step.endT cT4 rfl rfl rfl rfl))
      (Step.start cT5))
      (Step.exec cT6 .PROPERTY "Old Kent Road-0" 0 0 rfl rfl rfl))
      (Step.exec cT7 .ACTION_PLAY "Rent (Brown/L.Blue)-0" 0 0 rfl rfl rfl))
      (Step.rent cT8 0 rblC rfl (by decide))

/-- Witness for reach_complete_flag_sound: the completed DARK_BLUE set in the
reachable state cT3 satisfies the bound. -/
theorem reach_complete_flag_sound_witness :
    SET_LIMITS (PropertySet.mk .DARK_BLUE [plC 0, plC 1] true).color ≤
      (PropertySet.mk .DARK_BLUE [plC 0, plC 1] true).cards.length :=
  reach_complete_flag_sound dC3 false false cT3 ⟨.DARK_BLUE, [plC 0, plC 1], true⟩
    (Reach.step (Reach.step (Reach.step Reach.init
      (Step.start cT0))
      (Step.exec cT1 .PROPERTY "Park Lane-0" 0 0 rfl rfl rfl))
      (Step.exec cT2 .PROPERTY "Park Lane-1" 0 0 rfl rfl rfl))
    (Or.inl (by decide)) rfl

/-- The winner field changes across a transition only by crowning the active
player of the result, with GAME_OVER entered simultaneously and the active
player really holding at least three complete sets. -/
def WinnerSound (g g' : GameState) : Prop :=
  g'.winner ≠ g.winner →
    g'.winner = some (g'.getP g'.activePlayerIndex).name ∧
    g'.phase = .GAME_OVER ∧
    3 ≤ completeCount (g'.getP g'.activePlayerIndex)

theorem winnerSound_of_eq {g g' : GameState} (he : g'.winner = g.winner) :
    WinnerSound g g' :=
  fun hne => absurd he hne

theorem checkWin_winner_sound (s : GameState)
    (h : (checkWinCondition s).winner ≠ s.winner) :
    (checkWinCondition s).winner =
        some ((checkWinCondition s).getP (checkWinCondition s).activePlayerIndex).name ∧
      (checkWinCondition s).phase = .GAME_OVER ∧
      3 ≤ completeCount ((checkWinCondition s).getP (checkWinCondition s).activePlayerIndex) := by
  by_cases hc : 3 ≤ completeCount (s.getP s.activePlayerIndex)
  · rw [checkWinCondition, if_pos hc]
    exact ⟨rfl, rfl, hc⟩
  · rw [checkWinCondition, if_neg hc] at h
    exact absurd rfl h

theorem winnerSound_checkWin {g : GameState} (s1 : GameState)
    (hw : s1.winner = g.winner) : WinnerSound g (checkWinCondition s1) := by
  intro hne
  refine checkWin_winner_sound s1 ?_
  rw [hw]
  exact hne

theorem executeMove_winner (a : AppState) (mt : MoveType) (cid : String)
    (r1 r2 : Nat) : WinnerSound a.game (executeMove a mt cid r1 r2).game := by
  rw [executeMove]
  by_cases hg : a.game.actionsRemaining ≤ 0 ∨ a.game.phase ≠ .PLAY_PHASE ∨
      isTruthy a.game.winner = true ∨ a.game.pendingAction ≠ none
  · rw [if_pos hg]
    exact winnerSound_of_eq rfl
  · rw [if_neg hg]
    dsimp only
    cases hx : extractFirst (fun c => c.id == cid)
        (a.game.getP a.game.activePlayerIndex).hand with
    | none => exact winnerSound_of_eq rfl
    | some r =>
      obtain ⟨card, rest⟩ := r
      cases mt with
      | BANK =>
        dsimp only
        exact winnerSound_checkWin _ rfl
      | PROPERTY =>
        dsimp only
        by_cases ht : card.type ≠ .PROPERTY ∧ card.type ≠ .WILD
        · rw [if_pos ht]
          exact winnerSound_of_eq rfl
        · rw [if_neg ht]
          exact winnerSound_checkWin _ rfl
      | ACTION_PLAY =>
        dsimp only
        by_cases hrent : card.type = .RENT
        · rw [if_pos hrent]
          exact winnerSound_of_eq rfl
        · rw [if_neg hrent]
          by_cases hfd : card.name = "Force Deal"
          · rw [if_pos hfd]
            by_cases hai : (a.game.getP a.game.activePlayerIndex).isAI = true
            · rw [if_pos hai]
              by_cases htg : eligibleIdxs (a.game.getP a.game.activePlayerIndex).properties ≠ [] ∧
                  eligibleIdxs (a.game.getP (oppIdx a.game.activePlayerIndex)).properties ≠ []
              · rw [if_pos htg]
                exact winnerSound_of_eq rfl
              · rw [if_neg htg]
                exact winnerSound_of_eq rfl
            · rw [if_neg hai]
              exact winnerSound_of_eq rfl
          · rw [if_neg hfd]
            by_cases hsd : card.name = "Sly Deal"
            · rw [if_pos hsd]
              by_cases hai : (a.game.getP a.game.activePlayerIndex).isAI = true
              · rw [if_pos hai]
                by_cases htg : eligibleIdxs
                    (a.game.getP (oppIdx a.game.activePlayerIndex)).properties ≠ []
                · rw [if_pos htg]
                  exact winnerSound_of_eq rfl
                · rw [if_neg htg]
                  exact winnerSound_of_eq rfl
              · rw [if_neg hai]
                exact winnerSound_of_eq rfl
            · rw [if_neg hsd]
              by_cases hdb : card.name = "Deal Breaker" ∨ card.name = "Debt Collector" ∨
                  card.name = "It\x27s My Birthday"
              · rw [if_pos hdb]
                exact winnerSound_checkWin _ rfl
              · rw [if_neg hdb]
                by_cases hpg : card.name = "Pass Go"
                · rw [if_pos hpg]
                  exact winnerSound_checkWin _ rfl
                · rw [if_neg hpg]
                  exact winnerSound_checkWin _ rfl

theorem resolve_winner (s : GameState) (b : Bool) :
    WinnerSound s (resolvePendingAction s b) := by
  rw [resolvePendingAction]
  cases hpa : s.pendingAction with
  | none => exact winnerSound_of_eq rfl
  | some pa =>
    dsimp only
    cases hjsn : (if b then
        extractFirst (fun c => c.name == "Just Say No")
          (s.getP (jsnResponder pa)).hand
      else none) with
    | some r =>
      obtain ⟨jsnCard, rest⟩ := r
      exact winnerSound_of_eq rfl
    | none =>
      by_cases hodd : pa.jsnStack % 2 = 1
      · rw [if_pos hodd]
        exact winnerSound_of_eq rfl
      · rw [if_neg hodd]
        obtain ⟨_, _, _, _, _, _, hwin, _⟩ := applyEffect_keeps s pa
        exact winnerSound_checkWin _ hwin

theorem rent_winner (a : AppState) (iSet : Nat) :
    WinnerSound a.game (handleRentCollection a iSet).game := by
  rw [handleRentCollection]
  cases hrc : a.pendingRentCard with
  | none => exact winnerSound_of_eq rfl
  | some rc =>
    dsimp only
    cases hts : (a.game.getP a.game.activePlayerIndex).properties[iSet]? with
    | none => exact winnerSound_of_eq rfl
    | some ts =>
      dsimp only
      exact winnerSound_checkWin _ rfl

theorem startTurn_winner (s : GameState) : WinnerSound s (startTurn s) := by
  rw [startTurn]
  split <;> exact winnerSound_of_eq rfl

theorem endTurn_winner (a : AppState) : WinnerSound a.game (endTurn a).game := by
  rw [endTurn]
  split <;> exact winnerSound_of_eq rfl

theorem chooseMy_winner (a : AppState) (i : Nat) :
    WinnerSound a.game (chooseFDMySet a i).game := by
  rw [chooseFDMySet]
  split <;> exact winnerSound_of_eq rfl

theorem initFD_winner (a : AppState) (t : Nat) :
    WinnerSound a.game (initiateForceDeal a t).game := by
  rw [initiateForceDeal]
  split <;> exact winnerSound_of_eq rfl

theorem initSD_winner (a : AppState) (t : Nat) :
    WinnerSound a.game (initiateSlyDeal a t).game := by
  rw [initiateSlyDeal]
  split <;> exact winnerSound_of_eq rfl

theorem fin2_eq_or (i j : Fin 2) : i = j ∨ i = oppIdx j := by
  fin_cases i <;> fin_cases j <;> decide

theorem pairGet_mk_name (pp : Player × Player) (j : Fin 2) (p q : Player)
    (i : Fin 2) (hp : p.name = (pairGet pp j).name)
    (hq : q.name = (pairGet pp (oppIdx j)).name) :
    (pairGet (mkPlayers j p q) i).name = (pairGet pp i).name := by
  rcases fin2_eq_or i j with rfl | rfl
  · rw [pairGet_mk_self]
    exact hp
  · rw [pairGet_mk_opp]
    exact hq

theorem checkWin_active (s : GameState) :
    (checkWinCondition s).activePlayerIndex = s.activePlayerIndex := by
  rw [checkWinCondition]
  split <;> rfl

/-- checkWinCondition is the identity on a state that already records its
active player as the winner in GAME_OVER: firing again rewrites the same
values. -/
theorem checkWin_frozen (s : GameState) (hph : s.phase = .GAME_OVER)
    (hnm : s.winner = some ((s.getP s.activePlayerIndex).name)) :
    checkWinCondition s = s := by
  rw [checkWinCondition]
  split
  · rw [← hnm, ← hph]
  · rfl

/-- Component form of checkWin_frozen for a state reached from `s` without
touching winner, phase, active index or the active player's name. -/
theorem checkWin_frozen_of (s s' : GameState)
    (hw : s'.winner = s.winner)
    (hp : s'.phase = s.phase)
    (ha : s'.activePlayerIndex = s.activePlayerIndex)
    (hn : (s'.getP s'.activePlayerIndex).name = (s.getP s.activePlayerIndex).name)
    (hph : s.phase = .GAME_OVER)
    (hnm : s.winner = some ((s.getP s.activePlayerIndex).name)) :
    (checkWinCondition s').winner = s.winner ∧
    (checkWinCondition s').phase = s.phase ∧
    (checkWinCondition s').activePlayerIndex = s.activePlayerIndex ∧
    ((checkWinCondition s').getP (checkWinCondition s').activePlayerIndex).name =
      (s.getP s.activePlayerIndex).name := by
  have hfz : checkWinCondition s' = s' := by
    refine checkWin_frozen s' (by rw [hp, hph]) ?_
    rw [hw, hnm, hn]
  rw [hfz]
  exact ⟨hw, hp, ha, hn⟩

/-- A truthy winner trips the executeMove guard: the whole call is the
identity. -/
theorem executeMove_truthy (a : AppState) (mt : MoveType) (cid : String)
    (r1 r2 : Nat) (h : isTruthy a.game.winner = true) :
    executeMove a mt cid r1 r2 = a := by
  rw [executeMove, if_pos (Or.inr (Or.inr (Or.inl h)))]

/-- The action effects move cards between the players but never rename
them. -/
theorem applyEffect_name (s : GameState) (pa : PendingAction) (i : Fin 2) :
    ((applyEffect s pa).getP i).name = (s.getP i).name := by
  rw [applyEffect]
  cases hty : pa.type with
  | FORCE_DEAL =>
    dsimp only
    cases hmi : pa.mySetIndex with
    | none => rfl
    | some mi =>
      cases hti : pa.targetSetIndex with
      | none => rfl
      | some ti =>
        dsimp only
        cases hp1 : popSetAt (s.getP pa.attackerIndex).properties mi with
        | none => rfl
        | some r1 =>
          obtain ⟨myCard, attProps1⟩ := r1
          cases hp2 : popSetAt (s.getP (oppIdx pa.attackerIndex)).properties ti with
          | none => rfl
          | some r2 =>
            obtain ⟨oppCard, oppProps1⟩ := r2
            exact pairGet_mk_name s.players pa.attackerIndex _ _ i rfl rfl
  | SLY_DEAL =>
    dsimp only
    cases hti : pa.targetSetIndex with
    | none => rfl
    | some ti =>
      dsimp only
      cases hts : (s.getP (oppIdx pa.attackerIndex)).properties[ti]? with
      | none => rfl
      | some ts =>
        dsimp only
        by_cases hok : ts.isComplete = false ∧ ts.cards ≠ []
        · rw [if_pos hok]
          cases hp : popSetAt (s.getP (oppIdx pa.attackerIndex)).properties ti with
          | none => rfl
          | some r =>
            obtain ⟨stolen, oppProps1⟩ := r
            exact pairGet_mk_name s.players pa.attackerIndex _ _ i rfl rfl
        · rw [if_neg hok]
          rfl
  | DEAL_BREAKER =>
    dsimp only
    cases htk : takeFirstComplete (s.getP (oppIdx pa.attackerIndex)).properties with
    | none => rfl
    | some r =>
      obtain ⟨ts, oppProps1⟩ := r
      exact pairGet_mk_name s.players pa.attackerIndex _ _ i rfl rfl
  | DEBT_COLLECTOR =>
    dsimp only
    exact pairGet_mk_name s.players pa.attackerIndex _ _ i rfl rfl
  | BIRTHDAY =>
    dsimp only
    exact pairGet_mk_name s.players pa.attackerIndex _ _ i rfl rfl
  | RENT_ALL => rfl

/-- resolvePendingAction cannot move winner or phase of a state that already
records its active player as the winner in GAME_OVER: the re-fired win check
rewrites the same name. -/
theorem resolve_frozen (s : GameState) (b : Bool)
    (hph : s.phase = .GAME_OVER)
    (hnm : s.winner = some ((s.getP s.activePlayerIndex).name)) :
    (resolvePendingAction s b).winner = s.winner ∧
    (resolvePendingAction s b).phase = s.phase ∧
    (resolvePendingAction s b).activePlayerIndex = s.activePlayerIndex ∧
    ((resolvePendingAction s b).getP
        (resolvePendingAction s b).activePlayerIndex).name =
      (s.getP s.activePlayerIndex).name := by
  rw [resolvePendingAction]
  cases hpa : s.pendingAction with
  | none => exact ⟨rfl, rfl, rfl, rfl⟩
  | some pa =>
    dsimp only
    cases hjsn : (if b then
        extractFirst (fun c => c.name == "Just Say No")
          (s.getP (jsnResponder pa)).hand
      else none) with
    | some r =>
      obtain ⟨jsnCard, rest⟩ := r
      refine ⟨rfl, rfl, rfl, ?_⟩
      exact pairGet_mk_name s.players (jsnResponder pa) _ _ s.activePlayerIndex rfl rfl
    | none =>
      by_cases hodd : pa.jsnStack % 2 = 1
      · rw [if_pos hodd]
        exact ⟨rfl, rfl, rfl, rfl⟩
      · rw [if_neg hodd]
        obtain ⟨_, _, _, _, _, hactive, hwin, hph1⟩ := applyEffect_keeps s pa
        refine checkWin_frozen_of s
          { applyEffect s pa with
            discardPile := (applyEffect s pa).discardPile ++ [pa.card],
            actionsRemaining := (applyEffect s pa).actionsRemaining - 1,
            pendingAction := none } hwin hph1 hactive ?_ hph hnm
        show ((applyEffect s pa).getP (applyEffect s pa).activePlayerIndex).name =
          (s.getP s.activePlayerIndex).name
        rw [hactive, applyEffect_name]

/-- handleRentCollection cannot move winner or phase of a state that already
records its active player as the winner in GAME_OVER. -/
theorem rent_frozen (a : AppState) (iSet : Nat)
    (hph : a.game.phase = .GAME_OVER)
    (hnm : a.game.winner = some ((a.game.getP a.game.activePlayerIndex).name)) :
    (handleRentCollection a iSet).game.winner = a.game.winner ∧
    (handleRentCollection a iSet).game.phase = a.game.phase ∧
    (handleRentCollection a iSet).game.activePlayerIndex =
      a.game.activePlayerIndex ∧
    ((handleRentCollection a iSet).game.getP
        (handleRentCollection a iSet).game.activePlayerIndex).name =
      (a.game.getP a.game.activePlayerIndex).name := by
  rw [handleRentCollection]
  cases hrc : a.pendingRentCard with
  | none => exact ⟨rfl, rfl, rfl, rfl⟩
  | some rc =>
    dsimp only
    cases hts : (a.game.getP a.game.activePlayerIndex).properties[iSet]? with
    | none => exact ⟨rfl, rfl, rfl, rfl⟩
    | some ts =>
      dsimp only
      apply checkWin_frozen_of a.game
      · rfl
      · rfl
      · rfl
      · exact pairGet_mk_name a.game.players a.game.activePlayerIndex _ _
          a.game.activePlayerIndex rfl rfl
      · exact hph
      · exact hnm

theorem startTurn_gameover (s : GameState) (hph : s.phase = .GAME_OVER) :
    startTurn s = s := by
  rw [startTurn, if_neg (show ¬s.phase = .START_TURN by rw [hph]; decide)]

theorem endTurn_gameover (a : AppState) (hph : a.game.phase = .GAME_OVER) :
    (endTurn a).game = a.game := by
  rw [endTurn, if_neg (show ¬a.game.phase = .PLAY_PHASE by rw [hph]; decide)]

theorem chooseMy_game (a : AppState) (i : Nat) :
    (chooseFDMySet a i).game = a.game := by
  rw [chooseFDMySet]
  split <;> rfl

theorem initFD_keeps (a : AppState) (t : Nat) :
    (initiateForceDeal a t).game.players = a.game.players ∧
    (initiateForceDeal a t).game.winner = a.game.winner ∧
    (initiateForceDeal a t).game.phase = a.game.phase ∧
    (initiateForceDeal a t).game.activePlayerIndex = a.game.activePlayerIndex := by
  rw [initiateForceDeal]
  split <;> exact ⟨rfl, rfl, rfl, rfl⟩

theorem initSD_keeps (a : AppState) (t : Nat) :
    (initiateSlyDeal a t).game.players = a.game.players ∧
    (initiateSlyDeal a t).game.winner = a.game.winner ∧
    (initiateSlyDeal a t).game.phase = a.game.phase ∧
    (initiateSlyDeal a t).game.activePlayerIndex = a.game.activePlayerIndex := by
  rw [initiateSlyDeal]
  split <;> exact ⟨rfl, rfl, rfl, rfl⟩

/-- Winner, phase, active index and the active player's name all survive the
step unchanged. -/
def WFrozen (g g' : GameState) : Prop :=
  g'.winner = g.winner ∧ g'.phase = g.phase ∧
  g'.activePlayerIndex = g.activePlayerIndex ∧
  (g'.getP g'.activePlayerIndex).name = (g.getP g.activePlayerIndex).name

theorem step_frozen {a b : AppState} (hs : Step a b)
    (hw : isTruthy a.game.winner = true)
    (hph : a.game.phase = .GAME_OVER)
    (hnm : a.game.winner = some ((a.game.getP a.game.activePlayerIndex).name)) :
    WFrozen a.game b.game := by
  cases hs with
  | exec mt cid r1 r2 hR hF hS =>
    rw [executeMove_truthy a mt cid r1 r2 hw]
    exact ⟨rfl, rfl, rfl, rfl⟩
  | resolve b' => exact resolve_frozen a.game b' hph hnm
  | rent i c h hi => exact rent_frozen a i hph hnm
  | start =>
    show WFrozen a.game (startTurn a.game)
    rw [startTurn_gameover a.game hph]
    exact ⟨rfl, rfl, rfl, rfl⟩
  | endT hR hF hS hP =>
    rw [endTurn_gameover a hph]
    exact ⟨rfl, rfl, rfl, rfl⟩
  | chooseMy i c h =>
    rw [chooseMy_game a i]
    exact ⟨rfl, rfl, rfl, rfl⟩
  | initFD t mi c h hP =>
    obtain ⟨hp1, hw1, hph1, ha1⟩ := initFD_keeps a t
    refine ⟨hw1, hph1, ha1, ?_⟩
    rw [ha1, getP_eq_pairGet, getP_eq_pairGet, hp1]
  | initSD t c h hP =>
    obtain ⟨hp1, hw1, hph1, ha1⟩ := initSD_keeps a t
    refine ⟨hw1, hph1, ha1, ?_⟩
    rw [ha1, getP_eq_pairGet, getP_eq_pairGet, hp1]

theorem step_winnerSound {a b : AppState} (hs : Step a b) :
    WinnerSound a.game b.game := by
  cases hs with
  | exec mt cid r1 r2 hR hF hS => exact executeMove_winner a mt cid r1 r2
  | resolve b' => exact resolve_winner a.game b'
  | rent i c h hi => exact rent_winner a i
  | start => exact startTurn_winner a.game
  | endT hR hF hS hP => exact endTurn_winner a
  | chooseMy i c h => exact chooseMy_winner a i
  | initFD t mi c h hP => exact initFD_winner a t
  | initSD t c h hP => exact initSD_winner a t

/-- The win invariant of reachable states: a truthy winner comes with
GAME_OVER and names the active player. -/
def WTerm (a : AppState) : Prop :=
  isTruthy a.game.winner = true →
    a.game.phase = .GAME_OVER ∧
    a.game.winner = some ((a.game.getP a.game.activePlayerIndex).name)

theorem reach_wterm {d : List Card} {vsAI mp : Bool} {a : AppState}
    (hr : Reach d vsAI mp a) : WTerm a := by
  induction hr with
  | init =>
    intro h
    exact Bool.noConfusion h
  | @step a1 b1 hr1 hs ih =>
    intro hwb
    by_cases hch : b1.game.winner = a1.game.winner
    · have hwa : isTruthy a1.game.winner = true := by
        rw [← hch]
        exact hwb
      obtain ⟨hph, hnm⟩ := ih hwa
      obtain ⟨h1, h2, h3, h4⟩ := step_frozen hs hwa hph hnm
      refine ⟨by rw [h2, hph], ?_⟩
      rw [h1, hnm, h4]
    · obtain ⟨hwn, hphn, _⟩ := step_winnerSound hs hch
      exact ⟨hphn, hwn⟩

/-- C7 (amended): whenever a single engine step changes the winner field, it
sets it to the name of the step's active player, enters GAME_OVER at the
same step, and that active player really holds at least three complete sets;
and once the winner is set in a reachable state, no further permitted step
mutates the winner or the phase.  The claim's "some player" direction fails:
a transfer can hand the non-active player a third complete set without the
winner being set (win_exactness_fails). -/
theorem winner_change_characterization (a b : AppState) (hs : Step a b) :
    (b.game.winner ≠ a.game.winner →
      b.game.winner = some (b.game.getP b.game.activePlayerIndex).name ∧
      b.game.phase = .GAME_OVER ∧
      3 ≤ completeCount (b.game.getP b.game.activePlayerIndex)) ∧
    (∀ (d : List Card) (vsAI mp : Bool), Reach d vsAI mp a →
      isTruthy a.game.winner = true →
      b.game.winner = a.game.winner ∧ b.game.phase = a.game.phase) := by
  refine ⟨fun hne => step_winnerSound hs hne, fun d vsAI mp hr hw => ?_⟩
  obtain ⟨hph, hnm⟩ := reach_wterm hr hw
  obtain ⟨h1, h2, _, _⟩ := step_frozen hs hw hph hnm
  exact ⟨h1, h2⟩

def wwC (j : Nat) : Card := mkCard j "Water Works" .PROPERTY 2 (some .UTILITY) none none
def fdC : Card := mkCard 0 "Force Deal" .ACTION 3 none none (some "Swap a property with another player.")

def pW7 : Player :=
  ⟨"p1", "A", [m1C], [],
   [⟨.BROWN, [okC 0, okC 1], true⟩, ⟨.UTILITY, [wwC 0, wwC 1], true⟩,
    ⟨.DARK_BLUE, [plC 0, plC 1], true⟩], false⟩
def aW7 : AppState :=
  ⟨⟨(pW7, pC6b), 0, [], [], .PLAY_PHASE, 3, [], none, none, none⟩, none, none, none⟩

/-- Witness for winner_change_characterization: banking a card while the
active player holds three complete sets crowns that player. -/
theorem winner_change_characterization_witness :
    (executeMove aW7 .BANK "1M-0" 0 0).game.winner =
        some ((executeMove aW7 .BANK "1M-0" 0 0).game.getP
          (executeMove aW7 .BANK "1M-0" 0 0).game.activePlayerIndex).name ∧
      (executeMove aW7 .BANK "1M-0" 0 0).game.phase = .GAME_OVER ∧
      3 ≤ completeCount ((executeMove aW7 .BANK "1M-0" 0 0).game.getP
        (executeMove aW7 .BANK "1M-0" 0 0).game.activePlayerIndex) :=
  (winner_change_characterization aW7 (executeMove aW7 .BANK "1M-0" 0 0)
    (Step.exec aW7 .BANK "1M-0" 0 0 rfl rfl rfl)).1 (by decide)

/-- A shuffle outcome for the C7 trace. -/
def dC7 : List Card :=
  [okC 1, fdC, mkCard 0 "1M" .MONEY 1 none none none,
   mkCard 1 "1M" .MONEY 1 none none none, mkCard 2 "1M" .MONEY 1 none none none,
   wwC 0, wwC 1, plC 0, plC 1, okC 0,
   mkCard 3 "1M" .MONEY 1 none none none, mkCard 4 "1M" .MONEY 1 none none none,
   whC 0, mkCard 5 "1M" .MONEY 1 none none none,
   mkCard 0 "2M" .MONEY 2 none none none, mkCard 1 "2M" .MONEY 2 none none none,
   mkCard 2 "2M" .MONEY 2 none none none, mkCard 3 "2M" .MONEY 2 none none none,
   mkCard 4 "2M" .MONEY 2 none none none, mkCard 0 "3M" .MONEY 3 none none none] ++
  initialDeckList.filter fun c =>
    !(c.id == "Old Kent Road-1" || c.id == "Force Deal-0" || c.id == "1M-0" ||
      c.id == "1M-1" || c.id == "1M-2" || c.id == "Water Works-0" ||
      c.id == "Water Works-1" || c.id == "Park Lane-0" || c.id == "Park Lane-1" ||
      c.id == "Old Kent Road-0" || c.id == "1M-3" || c.id == "1M-4" ||
      c.id == "Whitehall-0" || c.id == "1M-5" || c.id == "2M-0" ||
      c.id == "2M-1" || c.id == "2M-2" || c.id == "2M-3" || c.id == "2M-4" ||
      c.id == "3M-0")

def wT0 : AppState := initApp dC7 false false
def wT1 : AppState := { wT0 with game := startTurn wT0.game }
def wT2 : AppState := executeMove wT1 .PROPERTY "Old Kent Road-1" 0 0
def wT3 : AppState := endTurn wT2
def wT4 : AppState := { wT3 with game := startTurn wT3.game }
def wT5 : AppState := executeMove wT4 .PROPERTY "Water Works-0" 0 0
def wT6 : AppState := executeMove wT5 .PROPERTY "Water Works-1" 0 0
def wT7 : AppState := executeMove wT6 .PROPERTY "Park Lane-0" 0 0
def wT8 : AppState := endTurn wT7
def wT9 : AppState := { wT8 with game := startTurn wT8.game }
def wT10 : AppState := endTurn wT9
def wT11 : AppState := { wT10 with game := startTurn wT10.game }
def wT12 : AppState := executeMove wT11 .PROPERTY "Park Lane-1" 0 0
def wT13 : AppState := executeMove wT12 .PROPERTY "Old Kent Road-0" 0 0
def wT14 : AppState := executeMove wT13 .PROPERTY "Whitehall-0" 0 0
def wT15 : AppState := endTurn wT14
def wT16 : AppState := { wT15 with game := startTurn wT15.game }
def wT17 : AppState := executeMove wT16 .ACTION_PLAY "Force Deal-0" 0 0
def wT18 : AppState := chooseFDMySet wT17 0
def wT19 : AppState := initiateForceDeal wT18 3
def wT20 : AppState := { wT19 with game := resolvePendingAction wT19.game false }

/-- C7 counterexample: a reachable state in which player 2 holds three
complete sets while winner is still null and the phase is still PLAY_PHASE.
Player 1's Force Deal swaps an Old Kent Road into player 2's brown set,
completing player 2's third set, but checkWinCondition examines only the
active player (player 1). -/
theorem win_exactness_fails :
    (dC7 : Multiset Card) = (initialDeckList : Multiset Card) ∧
    Reach dC7 false false wT20 ∧
    3 ≤ completeCount (wT20.game.getP 1) ∧
    wT20.game.winner = none ∧
    wT20.game.phase = .PLAY_PHASE := by
  refine ⟨by decide, ?_, by decide, by decide, by decide⟩
  exact Reach.step (Reach.step (Reach.step (Reach.step (Reach.step (Reach.step
    (Reach.step (Reach.step (Reach.step (Reach.step (Reach.step (Reach.step
    (Reach.step (Reach.step (Reach.step (Reach.step (Reach.step (Reach.step
    (Reach.step (Reach.step Reach.init
      (Step.start wT0))
      (Step.exec wT1 .PROPERTY "Old Kent Road-1" 0 0 rfl rfl rfl))
      (Step.endT wT2 rfl rfl rfl rfl))
      (Step.start wT3))
      (Step.exec wT4 .PROPERTY "Water Works-0" 0 0 rfl rfl rfl))
      (Step.exec wT5 .PROPERTY "Water Works-1" 0 0 rfl rfl rfl))
      (Step.exec wT6 .PROPERTY "Park Lane-0" 0 0 rfl rfl rfl))
      (Step.endT wT7 rfl rfl rfl rfl))
      (Step.start wT8))
      (Step.endT wT9 rfl rfl rfl rfl))
      (Step.start wT10))
      (Step.exec wT11 .PROPERTY "Park Lane-1" 0 0 rfl rfl rfl))
      (Step.exec wT12 .PROPERTY "Old Kent Road-0" 0 0 rfl rfl rfl))
      (Step.exec wT13 .PROPERTY "Whitehall-0" 0 0 rfl rfl rfl))
      (Step.endT wT14 rfl rfl rfl rfl))
      (Step.start wT15))
      (Step.exec wT16 .ACTION_PLAY "Force Deal-0" 0 0 rfl rfl rfl))
      (Step.chooseMy wT17 0 fdC rfl))
      (Step.initFD wT18 3 0 fdC rfl rfl))
      (Step.resolve wT19 false)

end Monodeal
